import Mathlib

/-!
# containerd-shim: process I/O wiring, Wait and killAll

A shallow embedding of `containerd-shim/process_linux.go`.

* Go's `error` is `GoError` (`none` is `nil`, `some msg` an error whose
  `Error()` text is `msg`).
* What the operating system and the runtime answer is an `Env`: the result
  of every `fifo.OpenFifo`, of `os.Getwd`, `runc.NewConsoleSocket`,
  `socket.ReceiveMaster`, `p.initializeIO` and of running a command.
* The process and the goroutines it has launched form a `Sys`.  The fields
  `opens`, `opened`, `closes`, `adds`, `dones` are logs of the calls made
  (`OpenFifo`/`NewConsoleSocket` attempts, handles obtained, `Close()` calls,
  `p.Add(1)` calls, `p.Done()` calls).
* Concurrency is a labelled transition system: `Event` lists what can
  happen next (a call of `openIO`, the console goroutine running, an
  `io.Copy` returning, the two statements of `Wait`), `enabled` says when,
  `apply` what it does.  `openIO` and the console goroutine are each one
  atomic step; `Wait` is two steps, one per statement.
* A second transition system (`Fine`, `fstep`, `fexec`) runs `openIO` and the
  console goroutine one source statement at a time, so that relay tasks can
  end and `Wait` can run between any two statements of the setup.  Run
  without interleaving it gives the atomic steps
  (`fine_sequential_eq_atomic`).
-/

namespace Shim

/-- Go `error` value: `none` is `nil`. -/
abbrev GoError := Option String

/-- Flag argument of `fifo.OpenFifo` as used by the source:
`syscall.O_RDONLY`, `syscall.O_WRONLY`, `syscall.O_WRONLY|syscall.O_NONBLOCK`. -/
inductive OpenFlag where
  | O_RDONLY
  | O_WRONLY
  | O_WRONLY_NONBLOCK
  deriving DecidableEq, Repr

/-- An open handle (`io.Closer`).  A handle returned by `fifo.OpenFifo` carries
the position of that call among the open attempts of the process, so two
opens never return the same handle. -/
inductive Handle where
  | fifo (seq : Nat) (path : String) (flag : OpenFlag)
  | socket (path : String)
  | ptyMaster
  | shimStdin
  | shimStdout
  | shimStderr
  deriving DecidableEq, Repr

/-- One attempt to open an endpoint: `fifo.OpenFifo(ctx, path, flag, 0)` or
`runc.NewConsoleSocket(path)`. -/
inductive OpenCall where
  | fifo (path : String) (flag : OpenFlag)
  | socket (path : String)
  deriving DecidableEq, Repr

/-- The fields of `p.state` read by this file. -/
structure State where
  Exec : Bool
  Terminal : Bool
  Stdin : String
  Stdout : String
  Stderr : String
  RuntimeArgs : List String
  RootUID : Nat
  RootGID : Nat
  deriving DecidableEq, Repr

/-- A command built by `exec.Command`, with its `SysProcAttr` (true once it is
set to `osutils.SetPDeathSig()`). -/
structure Cmd where
  path : String
  args : List String
  pdeathsig : Bool
  deriving DecidableEq, Repr

/-- Answers of the outside world.  `OpenFifo n path flag` is the error of the
`fifo.OpenFifo` call made when `n` open attempts (of a fifo or of the console
socket) have been made for the process before it, so that the same path may
open at one moment and time out at another.  `initializeIO` is the error of
`p.initializeIO(uid, gid)`, whose body is in another file of the package. -/
structure Env where
  OpenFifo : Nat → String → OpenFlag → GoError
  Getwd : Except String String
  Join : String → String → String
  NewConsoleSocket : String → GoError
  ReceiveMaster : GoError
  initializeIO : Nat → Nat → GoError
  CombinedOutput : Cmd → String × GoError

/-- The `*IO` value returned by `p.initializeIO`: the shim-side ends of the
pipes bridging to the container's stdio. -/
structure IOSet where
  Stdin : Handle
  Stdout : Handle
  Stderr : Handle
  deriving DecidableEq, Repr

/-- A goroutine running one `io.Copy(dst, src)`; `callsDone` says whether its
body goes on to call `p.Done()` when the copy returns. -/
structure Task where
  dst : Handle
  src : Handle
  callsDone : Bool
  running : Bool
  deriving DecidableEq, Repr

/-- The `process` struct: identity, state, the fields `openIO` assigns, and the
counter of the embedded `sync.WaitGroup`. -/
structure process where
  id : String
  runtime : String
  state : State
  stdio : Bool
  stdinCloser : Option Handle
  socket : Option Handle
  console : Option Handle
  shimIO : Option IOSet
  ioCleanupFn : Option (List Handle)
  wg : Int
  deriving DecidableEq, Repr

/-- The process together with its goroutines and the call logs. -/
structure Sys where
  p : process
  tasks : List Task
  opens : List OpenCall
  opened : List Handle
  closes : List Handle
  adds : Nat
  dones : Nat
  consolePending : Bool
  waiting : Nat
  result : Option GoError
  deriving DecidableEq, Repr

/-- A process on which nothing has been called yet. -/
def fresh (id runtime : String) (st : State) : Sys :=
  { p := { id := id, runtime := runtime, state := st, stdio := false,
           stdinCloser := none, socket := none, console := none,
           shimIO := none, ioCleanupFn := none, wg := 0 },
    tasks := [], opens := [], opened := [], closes := [], adds := 0, dones := 0,
    consolePending := false, waiting := 0, result := none }

/-! ## killAll -/

/-- The command `killAll` builds (lines 151-152). -/
def killCmd (p : process) : Cmd :=
  { path := p.runtime,
    args := p.state.RuntimeArgs ++ ["kill", "--all", p.id, "SIGKILL"],
    pdeathsig := true }

/-- Source `process.killAll` (lines 149-159): the commands run, in order, and
the returned error. -/
def process.killAll (env : Env) (p : process) : List Cmd × GoError :=
  if !p.state.Exec then
    let cmd := killCmd p
    match env.CombinedOutput cmd with
    | (out, some err) => ([cmd], some (out ++ ": " ++ err))
    | (_, none) => ([cmd], none)
  else
    ([], none)

/-! ## openIO -/

/-- The call `p.Add(1)`: the counter goes up by one. -/
def Add (s : Sys) : Sys :=
  { s with p := { s.p with wg := s.p.wg + 1 }, adds := s.adds + 1 }

/-- The call `p.Done()`: the counter goes down by one. -/
def Done (s : Sys) : Sys :=
  { s with p := { s.p with wg := s.p.wg - 1 }, dones := s.dones + 1 }

/-- The statement `go func() ... io.Copy(dst, src) ...`: a new running task. -/
def go (dst src : Handle) (callsDone : Bool) (s : Sys) : Sys :=
  { s with tasks := s.tasks ++ [{ dst := dst, src := src, callsDone := callsDone, running := true }] }

/-- One `fifo.OpenFifo(ctx, path, flag, 0)` call: the attempt is logged, and on
success the new handle is logged as opened and returned. -/
def OpenFifo (env : Env) (path : String) (flag : OpenFlag) (s : Sys) : Sys × Except String Handle :=
  let n := s.opens.length
  let s1 := { s with opens := s.opens ++ [OpenCall.fifo path flag] }
  match env.OpenFifo n path flag with
  | some e => (s1, .error e)
  | none => ({ s1 with opened := s1.opened ++ [Handle.fifo n path flag] }, .ok (Handle.fifo n path flag))

/-- One `runc.NewConsoleSocket(path)` call. -/
def NewConsoleSocket (env : Env) (path : String) (s : Sys) : Sys × Except String Handle :=
  let s1 := { s with opens := s.opens ++ [OpenCall.socket path] }
  match env.NewConsoleSocket path with
  | some e => (s1, .error e)
  | none => ({ s1 with opened := s1.opened ++ [Handle.socket path] }, .ok (Handle.socket path))

/-- The text of `fmt.Errorf("containerd-shim: opening %s failed: %s", name, err)`. -/
def openFailed (name err : String) : String :=
  "containerd-shim: opening " ++ name ++ " failed: " ++ err

/-- The `dest` closure of both entries of the pair table (lines 94-100 and
104-110), for the entry copying from `src`: `p.Add(1)`, then a goroutine that
copies `src` into `wc` and calls `p.Done()`. -/
def dest (src : Handle) (wc _rc : Handle) (s : Sys) : Sys :=
  go wc src true (Add s)

/-- The loop of lines 88-123 over the table of (name, source of the copy),
threading `ioClosers`. -/
def openPairs (env : Env) : List (String × Handle) → List Handle → Sys → Sys × Except String (List Handle)
  | [], ioClosers, s => (s, .ok ioClosers)
  | (name, src) :: rest, ioClosers, s =>
    match OpenFifo env name .O_WRONLY s with
    | (s1, .error err) => (s1, .error (openFailed name err))
    | (s1, .ok fw) =>
      match OpenFifo env name .O_RDONLY s1 with
      | (s2, .error err) => (s2, .error (openFailed name err))
      | (s2, .ok fr) => openPairs env rest (ioClosers ++ [fw, fr]) (dest src fw fr s2)

/-- The value `p.initializeIO` returns on success. -/
def shimIOSet : IOSet :=
  { Stdin := .shimStdin, Stdout := .shimStdout, Stderr := .shimStderr }

/-- Source `process.openIO` (lines 22-140).  In terminal mode the goroutine of
lines 48-78 is launched (`consolePending`) and runs later, as `consoleTask`. -/
def process.openIO (env : Env) (s0 : Sys) : Sys × GoError :=
  let s := { s0 with p := { s0.p with stdio := true } }
  match OpenFifo env s.p.state.Stdin .O_WRONLY_NONBLOCK s with
  | (s, .error err) => (s, some err)
  | (s, .ok stdinCloser) =>
    let s := { s with p := { s.p with stdinCloser := some stdinCloser } }
    if s.p.state.Terminal then
      match env.Getwd with
      | .error err => (s, some err)
      | .ok cwd =>
        match NewConsoleSocket env (env.Join cwd "pty.sock") s with
        | (s, .error err) => (s, some err)
        | (s, .ok socket) =>
          ({ s with p := { s.p with socket := some socket }, consolePending := true }, none)
    else
      match env.initializeIO s.p.state.RootUID s.p.state.RootGID with
      | some err => (s, some err)
      | none =>
        let i := shimIOSet
        let s := { s with p := { s.p with shimIO := some i },
                          opened := s.opened ++ [i.Stdin, i.Stdout, i.Stderr] }
        match openPairs env [(s.p.state.Stdout, i.Stdout), (s.p.state.Stderr, i.Stderr)] [] s with
        | (s, .error err) => (s, some err)
        | (s, .ok ioClosers) =>
          match OpenFifo env s.p.state.Stdin .O_RDONLY s with
          | (s, .error err) => (s, some (openFailed s.p.state.Stdin err))
          | (s, .ok f) =>
            let ioClosers := ioClosers ++ [i.Stdin, f]
            let s := { s with p := { s.p with ioCleanupFn := some ioClosers } }
            (go i.Stdin f false s, none)

/-- The goroutine of lines 48-78 (its returned error goes nowhere). -/
def consoleTask (env : Env) (s : Sys) : Sys :=
  match env.ReceiveMaster with
  | some _ => s
  | none =>
    let master := Handle.ptyMaster
    let s := { s with p := { s.p with console := some master }, opened := s.opened ++ [master] }
    match OpenFifo env s.p.state.Stdin .O_RDONLY s with
    | (s, .error _) => s
    | (s, .ok stdin) =>
      let s := go master stdin false s
      match OpenFifo env s.p.state.Stdout .O_WRONLY s with
      | (s, .error _) => s
      | (s, .ok stdoutw) =>
        match OpenFifo env s.p.state.Stdout .O_RDONLY s with
        | (s, .error _) => s
        | (s, .ok stdoutr) =>
          let s := Add s
          let s := { s with p := { s.p with ioCleanupFn := some [master, stdoutr, stdoutw] } }
          go stdoutw master true s

/-! ## Wait and the transition system -/

/-- How an `io.Copy` returned: end of stream, or a read or write error. -/
inductive CopyEnd where
  | eof
  | error (msg : String)
  deriving DecidableEq, Repr

/-- What can happen next. `waitBarrier` is `p.WaitGroup.Wait()` returning in a
call of `Wait` (line 143); `waitCleanup` is the rest of that call (lines 144-146). -/
inductive Event where
  | openIO
  | consoleTask
  | copyEnds (i : Nat) (r : CopyEnd)
  | waitBarrier
  | waitCleanup
  deriving DecidableEq, Repr

/-- The `i`-th task is still copying. -/
def taskRunning (s : Sys) (i : Nat) : Bool :=
  match s.tasks[i]? with
  | some t => t.running
  | none => false

/-- When an event can happen.  The control plane calls `openIO` once per
process; the console goroutine runs once, after `openIO` has launched it; an
`io.Copy` returns once; `WaitGroup.Wait` returns only while the counter is
zero. -/
def enabled (s : Sys) : Event → Bool
  | Event.openIO => s.result.isNone
  | .consoleTask => s.consolePending
  | .copyEnds i _ => taskRunning s i
  | .waitBarrier => decide (s.p.wg = 0)
  | .waitCleanup => decide (0 < s.waiting)

/-- The `io.Copy` of task `i` returns (with whatever outcome): the goroutine
calls `p.Done()` if its body says so, and ends. -/
def copyEnds (s : Sys) (i : Nat) (_r : CopyEnd) : Sys :=
  match s.tasks[i]? with
  | none => s
  | some t =>
    let s1 := { s with tasks := s.tasks.set i { t with running := false } }
    if t.callsDone then Done s1 else s1

/-- Lines 144-146: run the cleanup closure if there is one; each handle it
holds gets a `Close()` call. -/
def waitCleanup (s : Sys) : Sys :=
  match s.p.ioCleanupFn with
  | some ioClosers => { s with closes := s.closes ++ ioClosers, waiting := s.waiting - 1 }
  | none => { s with waiting := s.waiting - 1 }

/-- What an event does. -/
def apply (env : Env) (s : Sys) : Event → Sys
  | Event.openIO =>
    let r := process.openIO env s
    { r.1 with result := some r.2 }
  | .consoleTask => { consoleTask env s with consolePending := false }
  | .copyEnds i r => copyEnds s i r
  | .waitBarrier => { s with waiting := s.waiting + 1 }
  | .waitCleanup => waitCleanup s

/-- One step: an event that is not enabled leaves the system as it is. -/
def step (env : Env) (s : Sys) (e : Event) : Sys :=
  if enabled s e then apply env s e else s

/-- Run a schedule. -/
def exec (env : Env) (es : List Event) (s : Sys) : Sys :=
  es.foldl (step env) s

/-- Source `process.Wait` (lines 142-147) run without interruption: `none`
while `WaitGroup.Wait` would block. -/
def process.Wait (s : Sys) : Option Sys :=
  if s.p.wg = 0 then some (waitCleanup { s with waiting := s.waiting + 1 }) else none

/-! ## Concrete inputs -/

/-- An init process in pipe mode. -/
def stPipe : State :=
  { Exec := false, Terminal := false, Stdin := "in", Stdout := "out", Stderr := "err",
    RuntimeArgs := ["--root", "/run/runc"], RootUID := 0, RootGID := 0 }

/-- An init process in terminal mode. -/
def stTty : State := { stPipe with Terminal := true }

/-- A world in which every call succeeds. -/
def envOK : Env :=
  { OpenFifo := fun _ _ _ => none,
    Getwd := .ok "/work",
    Join := fun a b => a ++ "/" ++ b,
    NewConsoleSocket := fun _ => none,
    ReceiveMaster := none,
    initializeIO := fun _ _ => none,
    CombinedOutput := fun _ => ("", none) }

/-- A world in which the `k`-th open attempt times out and all else succeeds. -/
def envFailAt (k : Nat) : Env :=
  { envOK with OpenFifo := fun n _ _ => if n = k then some "context deadline exceeded" else none }

/-! ## The counting invariant -/

/-- Number of tasks launched so far whose body calls `p.Done()`. -/
def registered (s : Sys) : Nat := s.tasks.countP (fun t => t.callsDone)

/-- Number of such tasks still copying. -/
def registeredRunning (s : Sys) : Nat := s.tasks.countP (fun t => t.callsDone && t.running)

/-- Number of such tasks whose copy has returned. -/
def registeredEnded (s : Sys) : Nat := s.tasks.countP (fun t => t.callsDone && !t.running)

/-- The counting invariant of the completion tracker. -/
def Inv (s : Sys) : Prop :=
  s.adds = registered s ∧ s.dones = registeredEnded s ∧ s.p.wg = (registeredRunning s : Int)


/-- Setup is over: `openIO` has returned and no console goroutine is waiting to
run, so nothing will call `p.Add` or assign `p.ioCleanupFn` any more. -/
def settled (s : Sys) : Prop := s.result ≠ none ∧ s.consolePending = false

/-- After setup, a `Wait` call that is past its barrier sees a zero counter. -/
def pastBarrierZero (s : Sys) : Prop := 0 < s.waiting → s.p.wg = 0

/-- The path an open attempt names. -/
def OpenCall.path : OpenCall → String
  | .fifo path _ => path
  | .socket path => path

/-- The answer of the world to the `k`-th open attempt of the process, when
that attempt is `call`. -/
def callError (env : Env) (k : Nat) : OpenCall → GoError
  | .fifo path flag => env.OpenFifo k path flag
  | .socket path => env.NewConsoleSocket path

/-! ## Statement by statement

`process.openIO` and `consoleTask` above run a whole call in one step.  Here
the same two bodies run one source statement at a time, so that a relay
started by an earlier statement can end, and `Wait` can run, between any two
statements of the setup.  A call that assigns its result and tests its error
(`x, err := f(...)`, `if err != nil`, `p.x = x`) is one statement. -/

/-- Where the call of `openIO` stands: the statement it executes next, with the
local variables that this statement and the later ones read. -/
inductive MainPC where
  | stdio
  | openStdinW
  | getwd
  | newSocket (cwd : String)
  | spawn (socket : Handle)
  | shimInit
  | pairOpenW (name : String) (src : Handle) (rest : List (String × Handle))
      (ioClosers : List Handle)
  | pairOpenR (name : String) (src : Handle) (rest : List (String × Handle))
      (ioClosers : List Handle) (fw : Handle)
  | destAdd (src : Handle) (rest : List (String × Handle)) (ioClosers : List Handle)
      (fw fr : Handle)
  | destGo (src : Handle) (rest : List (String × Handle)) (ioClosers : List Handle)
      (fw fr : Handle)
  | pairAppend (rest : List (String × Handle)) (ioClosers : List Handle) (fw fr : Handle)
  | openStdinR (ioClosers : List Handle)
  | appendStdin (ioClosers : List Handle) (f : Handle)
  | setCleanup (ioClosers : List Handle) (f : Handle)
  | goStdin (f : Handle)
  | returnNil
  | returned
  deriving DecidableEq, Repr

/-- Where the goroutine of lines 48-78 stands. -/
inductive ConsPC where
  | notStarted
  | recv (socket : Handle)
  | openStdin (master : Handle)
  | goIn (master stdin : Handle)
  | openOutW (master : Handle)
  | openOutR (master stdoutw : Handle)
  | add (master stdoutw stdoutr : Handle)
  | setCleanup (master stdoutw stdoutr : Handle)
  | goOut (master stdoutw : Handle)
  | returnNil
  | ended
  deriving DecidableEq, Repr

/-- The system with the two setup threads at their statements. -/
structure Fine where
  sys : Sys
  main : MainPC
  console : ConsPC
  deriving DecidableEq, Repr

/-- A process on which `openIO` has just been called. -/
def ffresh (id runtime : String) (st : State) : Fine :=
  { sys := fresh id runtime st, main := .stdio, console := .notStarted }

/-- The head of the `for` loop of lines 88-112: the next pair's first open, or
the statement after the loop. -/
def loopNext (pairs : List (String × Handle)) (ioClosers : List Handle) : MainPC :=
  match pairs with
  | [] => .openStdinR ioClosers
  | (name, src) :: rest => .pairOpenW name src rest ioClosers

/-- The statement `return err` of `openIO`. -/
def returnErr (err : String) (F : Fine) : Fine :=
  { F with sys := { F.sys with result := some (some err) }, main := .returned }

/-- One statement of `openIO` (lines 22-140). -/
def mainStep (env : Env) (F : Fine) : Fine :=
  match F.main with
  | .stdio =>
    { F with sys := { F.sys with p := { F.sys.p with stdio := true } }, main := .openStdinW }
  | .openStdinW =>
    match OpenFifo env F.sys.p.state.Stdin .O_WRONLY_NONBLOCK F.sys with
    | (s, .error err) => returnErr err { F with sys := s }
    | (s, .ok stdinCloser) =>
      { F with sys := { s with p := { s.p with stdinCloser := some stdinCloser } },
               main := if s.p.state.Terminal then .getwd else .shimInit }
  | .getwd =>
    match env.Getwd with
    | .error err => returnErr err F
    | .ok cwd => { F with main := .newSocket cwd }
  | .newSocket cwd =>
    match NewConsoleSocket env (env.Join cwd "pty.sock") F.sys with
    | (s, .error err) => returnErr err { F with sys := s }
    | (s, .ok socket) =>
      { F with sys := { s with p := { s.p with socket := some socket } }, main := .spawn socket }
  | .spawn socket =>
    { F with sys := { F.sys with consolePending := true }, main := .returnNil,
             console := .recv socket }
  | .shimInit =>
    match env.initializeIO F.sys.p.state.RootUID F.sys.p.state.RootGID with
    | some err => returnErr err F
    | none =>
      let i := shimIOSet
      { F with sys := { F.sys with p := { F.sys.p with shimIO := some i },
                                   opened := F.sys.opened ++ [i.Stdin, i.Stdout, i.Stderr] },
               main := loopNext [(F.sys.p.state.Stdout, i.Stdout), (F.sys.p.state.Stderr, i.Stderr)] [] }
  | .pairOpenW name src rest ioClosers =>
    match OpenFifo env name .O_WRONLY F.sys with
    | (s, .error err) => returnErr (openFailed name err) { F with sys := s }
    | (s, .ok fw) => { F with sys := s, main := .pairOpenR name src rest ioClosers fw }
  | .pairOpenR name src rest ioClosers fw =>
    match OpenFifo env name .O_RDONLY F.sys with
    | (s, .error err) => returnErr (openFailed name err) { F with sys := s }
    | (s, .ok fr) => { F with sys := s, main := .destAdd src rest ioClosers fw fr }
  | .destAdd src rest ioClosers fw fr =>
    { F with sys := Add F.sys, main := .destGo src rest ioClosers fw fr }
  | .destGo src rest ioClosers fw fr =>
    { F with sys := go fw src true F.sys, main := .pairAppend rest ioClosers fw fr }
  | .pairAppend rest ioClosers fw fr =>
    { F with main := loopNext rest (ioClosers ++ [fw, fr]) }
  | .openStdinR ioClosers =>
    match OpenFifo env F.sys.p.state.Stdin .O_RDONLY F.sys with
    | (s, .error err) => returnErr (openFailed F.sys.p.state.Stdin err) { F with sys := s }
    | (s, .ok f) => { F with sys := s, main := .appendStdin ioClosers f }
  | .appendStdin ioClosers f =>
    { F with main := .setCleanup (ioClosers ++ [shimIOSet.Stdin, f]) f }
  | .setCleanup ioClosers f =>
    { F with sys := { F.sys with p := { F.sys.p with ioCleanupFn := some ioClosers } },
             main := .goStdin f }
  | .goStdin f =>
    { F with sys := go shimIOSet.Stdin f false F.sys, main := .returnNil }
  | .returnNil =>
    { F with sys := { F.sys with result := some none }, main := .returned }
  | .returned => F

/-- The console goroutine returns: it is over. -/
def consoleEnd (F : Fine) : Fine :=
  { F with sys := { F.sys with consolePending := false }, console := .ended }

/-- One statement of the goroutine of lines 48-78. -/
def consoleStep (env : Env) (F : Fine) : Fine :=
  match F.console with
  | .notStarted => F
  | .recv _ =>
    match env.ReceiveMaster with
    | some _ => consoleEnd F
    | none =>
      { F with sys := { F.sys with p := { F.sys.p with console := some Handle.ptyMaster },
                                   opened := F.sys.opened ++ [Handle.ptyMaster] },
               console := .openStdin Handle.ptyMaster }
  | .openStdin master =>
    match OpenFifo env F.sys.p.state.Stdin .O_RDONLY F.sys with
    | (s, .error _) => consoleEnd { F with sys := s }
    | (s, .ok stdin) => { F with sys := s, console := .goIn master stdin }
  | .goIn master stdin =>
    { F with sys := go master stdin false F.sys, console := .openOutW master }
  | .openOutW master =>
    match OpenFifo env F.sys.p.state.Stdout .O_WRONLY F.sys with
    | (s, .error _) => consoleEnd { F with sys := s }
    | (s, .ok stdoutw) => { F with sys := s, console := .openOutR master stdoutw }
  | .openOutR master stdoutw =>
    match OpenFifo env F.sys.p.state.Stdout .O_RDONLY F.sys with
    | (s, .error _) => consoleEnd { F with sys := s }
    | (s, .ok stdoutr) => { F with sys := s, console := .add master stdoutw stdoutr }
  | .add master stdoutw stdoutr =>
    { F with sys := Add F.sys, console := .setCleanup master stdoutw stdoutr }
  | .setCleanup master stdoutw stdoutr =>
    { F with sys := { F.sys with p := { F.sys.p with
                                        ioCleanupFn := some [master, stdoutr, stdoutw] } },
             console := .goOut master stdoutw }
  | .goOut master stdoutw =>
    { F with sys := go stdoutw master true F.sys, console := .returnNil }
  | .returnNil => consoleEnd F
  | .ended => F

/-- What can happen next in the statement-level system: one statement of
`openIO`, one statement of the console goroutine, an `io.Copy` returning, the
two statements of `Wait`. -/
inductive FEvent where
  | main
  | console
  | copyEnds (i : Nat) (r : CopyEnd)
  | waitBarrier
  | waitCleanup
  deriving DecidableEq, Repr

/-- One step of the statement-level system.  A thread that has not started or
is over does nothing; the other events are those of `step`. -/
def fstep (env : Env) (F : Fine) : FEvent → Fine
  | .main => mainStep env F
  | .console => consoleStep env F
  | .copyEnds i r => { F with sys := step env F.sys (Event.copyEnds i r) }
  | .waitBarrier => { F with sys := step env F.sys Event.waitBarrier }
  | .waitCleanup => { F with sys := step env F.sys Event.waitCleanup }

/-- Run a statement-level schedule. -/
def fexec (env : Env) (fs : List FEvent) (F : Fine) : Fine :=
  fs.foldl (fstep env) F

/-- The console goroutine has been launched and is not over. -/
def consoleRunning (F : Fine) : Bool :=
  match F.console with
  | .notStarted => false
  | .ended => false
  | _ => true

/-- The number of `p.Add(1)` calls made whose goroutine is not launched yet:
the thread stands between the `Add` and the `go` statement. -/
def pendingAdds (F : Fine) : Nat :=
  (match F.main with
   | .destGo _ _ _ _ _ => 1
   | _ => 0) +
  (match F.console with
   | .setCleanup _ _ _ => 1
   | .goOut _ _ => 1
   | _ => 0)

/-- The counting invariant of the statement-level system. -/
def FineInv (F : Fine) : Prop :=
  (F.sys.result = none ↔ F.main ≠ MainPC.returned) ∧
  F.sys.consolePending = consoleRunning F ∧
  (F.console ≠ ConsPC.notStarted → F.main = MainPC.returnNil ∨ F.main = MainPC.returned) ∧
  F.sys.adds = registered F.sys + pendingAdds F ∧
  F.sys.dones = registeredEnded F.sys ∧
  F.sys.p.wg = ((registeredRunning F.sys + pendingAdds F : Nat) : Int)

/-- The atomic event a statement-level event is part of. -/
def FEvent.toEvent : FEvent → Event
  | .main => Event.openIO
  | .console => Event.consoleTask
  | .copyEnds i r => Event.copyEnds i r
  | .waitBarrier => Event.waitBarrier
  | .waitCleanup => Event.waitCleanup

/-- Task `i` exists, called `p.Add(1)` before it started, and is still copying. -/
def registeredRunningAt (s : Sys) (i : Nat) : Bool :=
  match s.tasks[i]? with
  | some t => t.callsDone && t.running
  | none => false

/-- The relay tasks launched so far, in order: destination, source, and whether
the task is registered with the tracker. -/
def launched (s : Sys) : List (Handle × Handle × Bool) :=
  s.tasks.map (fun t => (t.dst, t.src, t.callsDone))

/-- What a pipe-mode call of `openIO` has done when it stands at a given
statement: how many opens it has attempted, which relays it has launched,
and what its local variables hold. -/
def pipeShape (st : State) (F : Fine) : Prop :=
  F.sys.p.state = st ∧ F.console = ConsPC.notStarted ∧
  match F.main with
  | .stdio => F.sys.opens.length = 0 ∧ launched F.sys = []
  | .openStdinW => F.sys.opens.length = 0 ∧ launched F.sys = []
  | .shimInit => F.sys.opens.length = 1 ∧ launched F.sys = []
  | .pairOpenW name src rest _ =>
    (name = st.Stdout ∧ src = Handle.shimStdout ∧ rest = [(st.Stderr, Handle.shimStderr)] ∧
      F.sys.opens.length = 1 ∧ launched F.sys = []) ∨
    (name = st.Stderr ∧ src = Handle.shimStderr ∧ rest = [] ∧
      F.sys.opens.length = 3 ∧
      launched F.sys = [(Handle.fifo 1 st.Stdout .O_WRONLY, Handle.shimStdout, true)])
  | .pairOpenR name src rest _ fw =>
    (name = st.Stdout ∧ src = Handle.shimStdout ∧ rest = [(st.Stderr, Handle.shimStderr)] ∧
      fw = Handle.fifo 1 st.Stdout .O_WRONLY ∧
      F.sys.opens.length = 2 ∧ launched F.sys = []) ∨
    (name = st.Stderr ∧ src = Handle.shimStderr ∧ rest = [] ∧
      fw = Handle.fifo 3 st.Stderr .O_WRONLY ∧
      F.sys.opens.length = 4 ∧
      launched F.sys = [(Handle.fifo 1 st.Stdout .O_WRONLY, Handle.shimStdout, true)])
  | .destAdd src rest _ fw _ =>
    (src = Handle.shimStdout ∧ rest = [(st.Stderr, Handle.shimStderr)] ∧
      fw = Handle.fifo 1 st.Stdout .O_WRONLY ∧
      F.sys.opens.length = 3 ∧ launched F.sys = []) ∨
    (src = Handle.shimStderr ∧ rest = [] ∧ fw = Handle.fifo 3 st.Stderr .O_WRONLY ∧
      F.sys.opens.length = 5 ∧
      launched F.sys = [(Handle.fifo 1 st.Stdout .O_WRONLY, Handle.shimStdout, true)])
  | .destGo src rest _ fw _ =>
    (src = Handle.shimStdout ∧ rest = [(st.Stderr, Handle.shimStderr)] ∧
      fw = Handle.fifo 1 st.Stdout .O_WRONLY ∧
      F.sys.opens.length = 3 ∧ launched F.sys = []) ∨
    (src = Handle.shimStderr ∧ rest = [] ∧ fw = Handle.fifo 3 st.Stderr .O_WRONLY ∧
      F.sys.opens.length = 5 ∧
      launched F.sys = [(Handle.fifo 1 st.Stdout .O_WRONLY, Handle.shimStdout, true)])
  | .pairAppend rest _ _ _ =>
    (rest = [(st.Stderr, Handle.shimStderr)] ∧ F.sys.opens.length = 3 ∧
      launched F.sys = [(Handle.fifo 1 st.Stdout .O_WRONLY, Handle.shimStdout, true)]) ∨
    (rest = [] ∧ F.sys.opens.length = 5 ∧
      launched F.sys = [(Handle.fifo 1 st.Stdout .O_WRONLY, Handle.shimStdout, true),
                        (Handle.fifo 3 st.Stderr .O_WRONLY, Handle.shimStderr, true)])
  | .openStdinR _ =>
    F.sys.opens.length = 5 ∧
    launched F.sys = [(Handle.fifo 1 st.Stdout .O_WRONLY, Handle.shimStdout, true),
                      (Handle.fifo 3 st.Stderr .O_WRONLY, Handle.shimStderr, true)]
  | .appendStdin _ f =>
    f = Handle.fifo 5 st.Stdin .O_RDONLY ∧
    launched F.sys = [(Handle.fifo 1 st.Stdout .O_WRONLY, Handle.shimStdout, true),
                      (Handle.fifo 3 st.Stderr .O_WRONLY, Handle.shimStderr, true)]
  | .setCleanup _ f =>
    f = Handle.fifo 5 st.Stdin .O_RDONLY ∧
    launched F.sys = [(Handle.fifo 1 st.Stdout .O_WRONLY, Handle.shimStdout, true),
                      (Handle.fifo 3 st.Stderr .O_WRONLY, Handle.shimStderr, true)]
  | .goStdin f =>
    f = Handle.fifo 5 st.Stdin .O_RDONLY ∧
    launched F.sys = [(Handle.fifo 1 st.Stdout .O_WRONLY, Handle.shimStdout, true),
                      (Handle.fifo 3 st.Stderr .O_WRONLY, Handle.shimStderr, true)]
  | .returnNil =>
    launched F.sys = [(Handle.fifo 1 st.Stdout .O_WRONLY, Handle.shimStdout, true),
                      (Handle.fifo 3 st.Stderr .O_WRONLY, Handle.shimStderr, true),
                      (Handle.shimStdin, Handle.fifo 5 st.Stdin .O_RDONLY, false)]
  | .returned =>
    F.sys.result = some none →
    launched F.sys = [(Handle.fifo 1 st.Stdout .O_WRONLY, Handle.shimStdout, true),
                      (Handle.fifo 3 st.Stderr .O_WRONLY, Handle.shimStderr, true),
                      (Handle.shimStdin, Handle.fifo 5 st.Stdin .O_RDONLY, false)]
  | .getwd => False
  | .newSocket _ => False
  | .spawn _ => False

/-! ## The tracker counts the registered tasks that are still copying -/

theorem Inv_fresh (id runtime : String) (st : State) : Inv (fresh id runtime st) := by
  simp [Inv, fresh, registered, registeredEnded, registeredRunning]

theorem Inv_of_eq {s s1 : Sys} (h : Inv s) (ht : s1.tasks = s.tasks) (ha : s1.adds = s.adds)
    (hd : s1.dones = s.dones) (hw : s1.p.wg = s.p.wg) : Inv s1 := by
  simp only [Inv, registered, registeredEnded, registeredRunning] at *
  rw [ht, ha, hd, hw]; exact h

theorem OpenFifo_frame (env : Env) (path : String) (flag : OpenFlag) (s : Sys) :
    (OpenFifo env path flag s).1.tasks = s.tasks ∧ (OpenFifo env path flag s).1.adds = s.adds ∧
    (OpenFifo env path flag s).1.dones = s.dones ∧ (OpenFifo env path flag s).1.p = s.p ∧
    (OpenFifo env path flag s).1.closes = s.closes ∧ (OpenFifo env path flag s).1.waiting = s.waiting ∧
    (OpenFifo env path flag s).1.result = s.result ∧
    (OpenFifo env path flag s).1.consolePending = s.consolePending := by
  rcases h : env.OpenFifo s.opens.length path flag with _ | e <;> simp [OpenFifo, h]

theorem Inv_OpenFifo (env : Env) (path : String) (flag : OpenFlag) (s : Sys) (h : Inv s) :
    Inv (OpenFifo env path flag s).1 := by
  obtain ⟨h1, h2, h3, h4, -⟩ := OpenFifo_frame env path flag s
  exact Inv_of_eq h h1 h2 h3 (by rw [h4])

theorem Inv_go_unregistered (dst src : Handle) (s : Sys) (h : Inv s) : Inv (go dst src false s) := by
  simp only [Inv, registered, registeredEnded, registeredRunning, go] at *
  simpa using h

theorem Inv_dest (src wc rc : Handle) (s : Sys) (h : Inv s) : Inv (dest src wc rc s) := by
  simp only [Inv, registered, registeredEnded, registeredRunning, go, dest, Add] at *
  obtain ⟨h1, h2, h3⟩ := h
  simp [h1, h2, h3]

theorem Inv_openPairs (env : Env) (l : List (String × Handle)) (cl : List Handle) (s : Sys)
    (h : Inv s) : Inv (openPairs env l cl s).1 := by
  induction l generalizing cl s with
  | nil => simpa [openPairs] using h
  | cons a rest ih =>
    obtain ⟨name, src⟩ := a
    unfold openPairs
    have h1 := Inv_OpenFifo env name .O_WRONLY s h
    rcases hA : OpenFifo env name .O_WRONLY s with ⟨s1, _ | fw⟩
    · rw [hA] at h1; simpa using h1
    · rw [hA] at h1
      simp only
      have h2 := Inv_OpenFifo env name .O_RDONLY s1 h1
      rcases hB : OpenFifo env name .O_RDONLY s1 with ⟨s2, _ | fr⟩
      · rw [hB] at h2; simpa using h2
      · rw [hB] at h2
        exact ih _ _ (Inv_dest _ _ _ _ h2)

theorem countP_set_ended (l : List Task) (i : Nat) (t : Task) (h : l[i]? = some t)
    (hr : t.running = true) :
    (l.set i { t with running := false }).countP (fun t => t.callsDone) = l.countP (fun t => t.callsDone) ∧
    (l.set i { t with running := false }).countP (fun t => t.callsDone && t.running)
        + (if t.callsDone then 1 else 0) = l.countP (fun t => t.callsDone && t.running) ∧
    (l.set i { t with running := false }).countP (fun t => t.callsDone && !t.running)
        = l.countP (fun t => t.callsDone && !t.running) + (if t.callsDone then 1 else 0) := by
  induction l generalizing i with
  | nil => simp at h
  | cons a rest ih =>
    cases i with
    | zero =>
      simp only [List.getElem?_cons_zero, Option.some.injEq] at h
      subst h
      simp only [List.set_cons_zero, List.countP_cons, hr]
      cases a.callsDone <;> simp
    | succ j =>
      simp only [List.getElem?_cons_succ] at h
      obtain ⟨h1, h2, h3⟩ := ih j h
      simp only [List.set_cons_succ, List.countP_cons]
      refine ⟨by rw [h1], by omega, by omega⟩

theorem Inv_copyEnds (s : Sys) (i : Nat) (r : CopyEnd) (h : Inv s) (hen : taskRunning s i = true) :
    Inv (copyEnds s i r) := by
  unfold taskRunning at hen
  unfold copyEnds
  rcases ht : s.tasks[i]? with _ | t
  · simp [ht] at hen
  · simp only [ht] at hen ⊢
    obtain ⟨h1, h2, h3⟩ := countP_set_ended s.tasks i t ht hen
    obtain ⟨ha, hd, hw⟩ := h
    simp only [registered, registeredEnded, registeredRunning] at ha hd hw
    cases hc : t.callsDone
    · simp only [hc, Bool.false_eq_true, if_false, Nat.add_zero] at h1 h2 h3 ⊢
      simp only [Inv, registered, registeredEnded, registeredRunning]
      rw [h1, h2, h3]; exact ⟨ha, hd, hw⟩
    · simp only [hc, if_true] at h1 h2 h3 ⊢
      simp only [Inv, registered, registeredEnded, registeredRunning, Done]
      rw [h1, h3]
      refine ⟨ha, by omega, ?_⟩
      rw [hw, ← h2]; push_cast; ring

theorem Inv_NewConsoleSocket (env : Env) (path : String) (s : Sys) (h : Inv s) :
    Inv (NewConsoleSocket env path s).1 := by
  rcases hc : env.NewConsoleSocket path with _ | e <;>
    simp only [NewConsoleSocket, hc] <;> exact Inv_of_eq h rfl rfl rfl rfl

theorem Inv_of_OpenFifo {env : Env} {path : String} {flag : OpenFlag} {s s1 : Sys}
    {r : Except String Handle} (heq : OpenFifo env path flag s = (s1, r)) (h : Inv s) : Inv s1 := by
  have := Inv_OpenFifo env path flag s h
  rw [heq] at this; exact this

theorem Inv_of_NewConsoleSocket {env : Env} {path : String} {s s1 : Sys}
    {r : Except String Handle} (heq : NewConsoleSocket env path s = (s1, r)) (h : Inv s) : Inv s1 := by
  have := Inv_NewConsoleSocket env path s h
  rw [heq] at this; exact this

theorem Inv_of_openPairs {env : Env} {l : List (String × Handle)} {cl : List Handle} {s s1 : Sys}
    {r : Except String (List Handle)} (heq : openPairs env l cl s = (s1, r)) (h : Inv s) : Inv s1 := by
  have := Inv_openPairs env l cl s h
  rw [heq] at this; exact this

theorem openIO_preserves_Inv (env : Env) (s : Sys) (h : Inv s) : Inv ( process.openIO env s).1 := by
  unfold process.openIO
  simp only
  split
  · rename_i sa err hA
    exact Inv_of_OpenFifo hA (Inv_of_eq h rfl rfl rfl rfl)
  · rename_i sa stdinCloser hA
    have h1 : Inv sa := Inv_of_OpenFifo hA (Inv_of_eq h rfl rfl rfl rfl)
    split
    · split
      · exact Inv_of_eq h1 rfl rfl rfl rfl
      · split
        · rename_i sb err hB
          exact Inv_of_NewConsoleSocket hB (Inv_of_eq h1 rfl rfl rfl rfl)
        · rename_i sb sock hB
          exact Inv_of_eq (Inv_of_NewConsoleSocket hB (Inv_of_eq h1 rfl rfl rfl rfl)) rfl rfl rfl rfl
    · split
      · exact Inv_of_eq h1 rfl rfl rfl rfl
      · split
        · rename_i sb err hB
          exact Inv_of_openPairs hB (Inv_of_eq h1 rfl rfl rfl rfl)
        · rename_i sb cl hB
          have h4 : Inv sb := Inv_of_openPairs hB (Inv_of_eq h1 rfl rfl rfl rfl)
          split
          · rename_i sc err hC
            exact Inv_of_OpenFifo hC h4
          · rename_i sc f hC
            exact Inv_go_unregistered _ _ _ (Inv_of_eq (Inv_of_OpenFifo hC h4) rfl rfl rfl rfl)

theorem Inv_Add_go (dst src : Handle) (s s1 : Sys) (h : Inv s) (ht : s1.tasks = s.tasks)
    (ha : s1.adds = s.adds + 1) (hd : s1.dones = s.dones) (hw : s1.p.wg = s.p.wg + 1) :
    Inv (go dst src true s1) := by
  simp only [Inv, registered, registeredEnded, registeredRunning, go] at *
  obtain ⟨h1, h2, h3⟩ := h
  simp [ht, ha, hd, hw, h1, h2, h3]

theorem Inv_consoleTask (env : Env) (s : Sys) (h : Inv s) : Inv (consoleTask env s) := by
  unfold consoleTask
  split
  · exact h
  · simp only
    split
    · rename_i sa err hA
      exact Inv_of_OpenFifo hA (Inv_of_eq h rfl rfl rfl rfl)
    · rename_i sa stdin hA
      have h1 : Inv sa := Inv_of_OpenFifo hA (Inv_of_eq h rfl rfl rfl rfl)
      split
      · rename_i sb err hB
        exact Inv_of_OpenFifo hB (Inv_go_unregistered _ _ _ h1)
      · rename_i sb stdoutw hB
        have h2 : Inv sb := Inv_of_OpenFifo hB (Inv_go_unregistered _ _ _ h1)
        split
        · rename_i sc err hC
          exact Inv_of_OpenFifo hC h2
        · rename_i sc stdoutr hC
          exact Inv_Add_go _ _ sc _ (Inv_of_OpenFifo hC h2) rfl rfl rfl rfl

theorem Inv_step (env : Env) (s : Sys) (e : Event) (h : Inv s) : Inv (step env s e) := by
  unfold step
  split
  · rename_i hen
    cases e with
    | openIO => exact Inv_of_eq (openIO_preserves_Inv env s h) rfl rfl rfl rfl
    | consoleTask => exact Inv_of_eq (Inv_consoleTask env s h) rfl rfl rfl rfl
    | copyEnds i r => exact Inv_copyEnds s i r h hen
    | waitBarrier => exact Inv_of_eq h rfl rfl rfl rfl
    | waitCleanup =>
      simp only [apply, waitCleanup]
      split <;> exact Inv_of_eq h rfl rfl rfl rfl
  · exact h

theorem Inv_exec (env : Env) (es : List Event) (s : Sys) (h : Inv s) : Inv (exec env es s) := by
  induction es generalizing s with
  | nil => exact h
  | cons e rest ih => exact ih _ (Inv_step env s e h)

/-! ## After setup -/

theorem map_set_of_eq {β : Type} (f : Task → β) (l : List Task) (i : Nat) (t t1 : Task)
    (h : l[i]? = some t) (hf : f t1 = f t) : (l.set i t1).map f = l.map f := by
  induction l generalizing i with
  | nil => simp
  | cons a rest ih =>
    cases i with
    | zero =>
      simp only [List.getElem?_cons_zero, Option.some.injEq] at h
      subst h
      simp [hf]
    | succ j =>
      simp only [List.getElem?_cons_succ] at h
      simp [ih j h]

theorem step_of_settled (env : Env) (s : Sys) (e : Event) (h : settled s) :
    settled (step env s e) ∧
    (step env s e).p.ioCleanupFn = s.p.ioCleanupFn ∧
    (step env s e).tasks.map Task.callsDone = s.tasks.map Task.callsDone ∧
    (step env s e).opened = s.opened ∧
    (step env s e).opens = s.opens ∧
    (step env s e).result = s.result ∧
    (∀ i, taskRunning (step env s e) i = true → taskRunning s i = true) ∧
    (step env s e).closes =
      if e = Event.waitCleanup ∧ 0 < s.waiting then s.closes ++ s.p.ioCleanupFn.getD [] else s.closes := by
  obtain ⟨hr, hc⟩ := h
  cases e with
  | openIO =>
    have : enabled s Event.openIO = false := by
      simp only [enabled]; cases hres : s.result <;> simp_all
    simp [step, this, settled, hr, hc]
  | consoleTask => simp [step, enabled, settled, hr, hc]
  | copyEnds i r =>
    unfold step
    split
    · rename_i hen
      simp only [enabled, taskRunning] at hen
      rcases ht : s.tasks[i]? with _ | t
      · simp [ht] at hen
      · have happ : apply env s (Event.copyEnds i r) =
            if t.callsDone then Done { s with tasks := s.tasks.set i { t with running := false } }
            else { s with tasks := s.tasks.set i { t with running := false } } := by
          simp [apply, copyEnds, ht]
        rw [happ]
        have hm := map_set_of_eq Task.callsDone s.tasks i t { t with running := false } ht rfl
        have hrun : ∀ j, taskRunning { s with tasks := s.tasks.set i { t with running := false } } j = true →
            taskRunning s j = true := by
          intro j
          simp only [taskRunning, List.getElem?_set]
          split_ifs with h1 h2
          · subst h1; simp
          · simp
          · simp
        split
        · exact ⟨⟨hr, hc⟩, rfl, hm, rfl, rfl, rfl, hrun, by simp [Done]⟩
        · exact ⟨⟨hr, hc⟩, rfl, hm, rfl, rfl, rfl, hrun, by simp⟩
    · simp [settled, hr, hc]
  | waitBarrier =>
    unfold step
    split <;> simp [apply, settled, hr, hc, taskRunning]
  | waitCleanup =>
    unfold step
    split
    · rename_i hen
      simp only [enabled, decide_eq_true_eq] at hen
      simp only [apply, waitCleanup]
      split <;> simp_all [settled, taskRunning]
    · rename_i hen
      simp only [enabled, decide_eq_true_eq] at hen
      simp [settled, hr, hc, hen]

theorem step_registeredRunning_le (env : Env) (s : Sys) (e : Event) (h : settled s) :
    registeredRunning (step env s e) ≤ registeredRunning s ∧
    ((step env s e).waiting ≤ s.waiting ∨ s.p.wg = 0) := by
  obtain ⟨hr, hc⟩ := h
  cases e with
  | openIO =>
    have : enabled s Event.openIO = false := by
      simp only [enabled]; cases hres : s.result <;> simp_all
    simp [step, this]
  | consoleTask => simp [step, enabled, hc]
  | copyEnds i r =>
    unfold step
    split
    · rename_i hen
      simp only [enabled, taskRunning] at hen
      rcases ht : s.tasks[i]? with _ | t
      · simp [ht] at hen
      · simp only [ht] at hen
        obtain ⟨-, h2, -⟩ := countP_set_ended s.tasks i t ht hen
        have happ : apply env s (Event.copyEnds i r) =
            if t.callsDone then Done { s with tasks := s.tasks.set i { t with running := false } }
            else { s with tasks := s.tasks.set i { t with running := false } } := by
          simp [apply, copyEnds, ht]
        rw [happ]
        split
        · exact ⟨by simp only [registeredRunning, Done]; omega, Or.inl (le_refl _)⟩
        · exact ⟨by simp only [registeredRunning]; omega, Or.inl (le_refl _)⟩
    · simp
  | waitBarrier =>
    unfold step
    split
    · rename_i hen
      simp only [enabled, decide_eq_true_eq] at hen
      exact ⟨le_refl _, Or.inr hen⟩
    · simp
  | waitCleanup =>
    unfold step
    split
    · simp only [apply, waitCleanup]
      split <;> simp [registeredRunning]
    · simp


theorem step_pastBarrierZero (env : Env) (s : Sys) (e : Event) (hI : Inv s) (hs : settled s)
    (hw : pastBarrierZero s) : pastBarrierZero (step env s e) := by
  intro hpos
  have hI1 := Inv_step env s e hI
  obtain ⟨hle, hwait⟩ := step_registeredRunning_le env s e hs
  have h0 : s.p.wg = 0 := by
    rcases hwait with h | h
    · exact hw (by omega)
    · exact h
  have : registeredRunning s = 0 := by
    have := hI.2.2; rw [h0] at this; exact_mod_cast this.symm
  rw [hI1.2.2]
  have : registeredRunning (step env s e) = 0 := by omega
  rw [this]; rfl

theorem exec_of_settled (env : Env) (es : List Event) (s : Sys) (hI : Inv s) (h : settled s)
    (hw : pastBarrierZero s) :
    Inv (exec env es s) ∧ settled (exec env es s) ∧ pastBarrierZero (exec env es s) ∧
    (exec env es s).p.ioCleanupFn = s.p.ioCleanupFn ∧
    (exec env es s).tasks.map Task.callsDone = s.tasks.map Task.callsDone ∧
    (exec env es s).opened = s.opened ∧
    (exec env es s).opens = s.opens ∧
    (exec env es s).result = s.result ∧
    (∀ i, taskRunning (exec env es s) i = true → taskRunning s i = true) := by
  induction es generalizing s with
  | nil => exact ⟨hI, h, hw, rfl, rfl, rfl, rfl, rfl, fun _ hx => hx⟩
  | cons e rest ih =>
    obtain ⟨h1, h2, h3, h4, h5, h6, h7, -⟩ := step_of_settled env s e h
    obtain ⟨k0, k1, k2, k3, k4, k5, k6, k7, k8⟩ :=
      ih (step env s e) (Inv_step env s e hI) h1 (step_pastBarrierZero env s e hI h hw)
    refine ⟨k0, k1, k2, ?_, ?_, ?_, ?_, ?_, ?_⟩
    · exact k3.trans h2
    · exact k4.trans h3
    · exact k5.trans h4
    · exact k6.trans h5
    · exact k7.trans h6
    · exact fun i hi => h7 i (k8 i hi)

theorem registered_eq_running_add_ended (s : Sys) :
    registered s = registeredRunning s + registeredEnded s := by
  unfold registered registeredRunning registeredEnded
  induction s.tasks with
  | nil => simp
  | cons a rest ih =>
    simp only [List.countP_cons, ih]
    cases a.callsDone <;> cases a.running <;> simp <;> omega


/-! ## The paths through `openIO` and through the console goroutine -/

theorem openIO_fresh_cases (env : Env) (id runtime : String) (st : State) :
    (∃ e, env.OpenFifo 0 st.Stdin .O_WRONLY_NONBLOCK = some e ∧
      process.openIO env (fresh id runtime st) =
        ({ fresh id runtime st with
            p := { (fresh id runtime st).p with
                 stdio := true },
            opens := [OpenCall.fifo st.Stdin .O_WRONLY_NONBLOCK] },
         some e)) ∨
    (∃ e, env.OpenFifo 0 st.Stdin .O_WRONLY_NONBLOCK = none ∧ st.Terminal = true ∧ env.Getwd = .error e ∧
      process.openIO env (fresh id runtime st) =
        ({ fresh id runtime st with
            p := { (fresh id runtime st).p with
                 stdio := true,
                 stdinCloser := some (Handle.fifo 0 st.Stdin .O_WRONLY_NONBLOCK) },
            opens := [OpenCall.fifo st.Stdin .O_WRONLY_NONBLOCK],
            opened := [Handle.fifo 0 st.Stdin .O_WRONLY_NONBLOCK] },
         some e)) ∨
    (∃ cwd e, env.OpenFifo 0 st.Stdin .O_WRONLY_NONBLOCK = none ∧ st.Terminal = true ∧ env.Getwd = .ok cwd ∧ env.NewConsoleSocket (env.Join cwd "pty.sock") = some e ∧
      process.openIO env (fresh id runtime st) =
        ({ fresh id runtime st with
            p := { (fresh id runtime st).p with
                 stdio := true,
                 stdinCloser := some (Handle.fifo 0 st.Stdin .O_WRONLY_NONBLOCK) },
            opens := [OpenCall.fifo st.Stdin .O_WRONLY_NONBLOCK, OpenCall.socket (env.Join cwd "pty.sock")],
            opened := [Handle.fifo 0 st.Stdin .O_WRONLY_NONBLOCK] },
         some e)) ∨
    (∃ cwd, env.OpenFifo 0 st.Stdin .O_WRONLY_NONBLOCK = none ∧ st.Terminal = true ∧ env.Getwd = .ok cwd ∧ env.NewConsoleSocket (env.Join cwd "pty.sock") = none ∧
      process.openIO env (fresh id runtime st) =
        ({ fresh id runtime st with
            p := { (fresh id runtime st).p with
                 stdio := true,
                 stdinCloser := some (Handle.fifo 0 st.Stdin .O_WRONLY_NONBLOCK),
                 socket := some (Handle.socket (env.Join cwd "pty.sock")) },
            opens := [OpenCall.fifo st.Stdin .O_WRONLY_NONBLOCK, OpenCall.socket (env.Join cwd "pty.sock")],
            opened := [Handle.fifo 0 st.Stdin .O_WRONLY_NONBLOCK, Handle.socket (env.Join cwd "pty.sock")],
            consolePending := true },
         none)) ∨
    (∃ e, env.OpenFifo 0 st.Stdin .O_WRONLY_NONBLOCK = none ∧ st.Terminal = false ∧ env.initializeIO st.RootUID st.RootGID = some e ∧
      process.openIO env (fresh id runtime st) =
        ({ fresh id runtime st with
            p := { (fresh id runtime st).p with
                 stdio := true,
                 stdinCloser := some (Handle.fifo 0 st.Stdin .O_WRONLY_NONBLOCK) },
            opens := [OpenCall.fifo st.Stdin .O_WRONLY_NONBLOCK],
            opened := [Handle.fifo 0 st.Stdin .O_WRONLY_NONBLOCK] },
         some e)) ∨
    (∃ e, env.OpenFifo 0 st.Stdin .O_WRONLY_NONBLOCK = none ∧ st.Terminal = false ∧ env.initializeIO st.RootUID st.RootGID = none ∧ env.OpenFifo 1 st.Stdout .O_WRONLY = some e ∧
      process.openIO env (fresh id runtime st) =
        ({ fresh id runtime st with
            p := { (fresh id runtime st).p with
                 stdio := true,
                 stdinCloser := some (Handle.fifo 0 st.Stdin .O_WRONLY_NONBLOCK),
                 shimIO := some shimIOSet },
            opens := [OpenCall.fifo st.Stdin .O_WRONLY_NONBLOCK, OpenCall.fifo st.Stdout .O_WRONLY],
            opened := [Handle.fifo 0 st.Stdin .O_WRONLY_NONBLOCK, Handle.shimStdin, Handle.shimStdout, Handle.shimStderr] },
         some (openFailed st.Stdout e))) ∨
    (∃ e, env.OpenFifo 0 st.Stdin .O_WRONLY_NONBLOCK = none ∧ st.Terminal = false ∧ env.initializeIO st.RootUID st.RootGID = none ∧ env.OpenFifo 1 st.Stdout .O_WRONLY = none ∧ env.OpenFifo 2 st.Stdout .O_RDONLY = some e ∧
      process.openIO env (fresh id runtime st) =
        ({ fresh id runtime st with
            p := { (fresh id runtime st).p with
                 stdio := true,
                 stdinCloser := some (Handle.fifo 0 st.Stdin .O_WRONLY_NONBLOCK),
                 shimIO := some shimIOSet },
            opens := [OpenCall.fifo st.Stdin .O_WRONLY_NONBLOCK, OpenCall.fifo st.Stdout .O_WRONLY, OpenCall.fifo st.Stdout .O_RDONLY],
            opened := [Handle.fifo 0 st.Stdin .O_WRONLY_NONBLOCK, Handle.shimStdin, Handle.shimStdout, Handle.shimStderr, Handle.fifo 1 st.Stdout .O_WRONLY] },
         some (openFailed st.Stdout e))) ∨
    (∃ e, env.OpenFifo 0 st.Stdin .O_WRONLY_NONBLOCK = none ∧ st.Terminal = false ∧ env.initializeIO st.RootUID st.RootGID = none ∧ env.OpenFifo 1 st.Stdout .O_WRONLY = none ∧ env.OpenFifo 2 st.Stdout .O_RDONLY = none ∧ env.OpenFifo 3 st.Stderr .O_WRONLY = some e ∧
      process.openIO env (fresh id runtime st) =
        ({ fresh id runtime st with
            p := { (fresh id runtime st).p with
                 stdio := true,
                 stdinCloser := some (Handle.fifo 0 st.Stdin .O_WRONLY_NONBLOCK),
                 shimIO := some shimIOSet,
                 wg := 1 },
            tasks := [{ dst := Handle.fifo 1 st.Stdout .O_WRONLY, src := Handle.shimStdout, callsDone := true, running := true }],
            adds := 1,
            opens := [OpenCall.fifo st.Stdin .O_WRONLY_NONBLOCK, OpenCall.fifo st.Stdout .O_WRONLY, OpenCall.fifo st.Stdout .O_RDONLY, OpenCall.fifo st.Stderr .O_WRONLY],
            opened := [Handle.fifo 0 st.Stdin .O_WRONLY_NONBLOCK, Handle.shimStdin, Handle.shimStdout, Handle.shimStderr, Handle.fifo 1 st.Stdout .O_WRONLY, Handle.fifo 2 st.Stdout .O_RDONLY] },
         some (openFailed st.Stderr e))) ∨
    (∃ e, env.OpenFifo 0 st.Stdin .O_WRONLY_NONBLOCK = none ∧ st.Terminal = false ∧ env.initializeIO st.RootUID st.RootGID = none ∧ env.OpenFifo 1 st.Stdout .O_WRONLY = none ∧ env.OpenFifo 2 st.Stdout .O_RDONLY = none ∧ env.OpenFifo 3 st.Stderr .O_WRONLY = none ∧ env.OpenFifo 4 st.Stderr .O_RDONLY = some e ∧
      process.openIO env (fresh id runtime st) =
        ({ fresh id runtime st with
            p := { (fresh id runtime st).p with
                 stdio := true,
                 stdinCloser := some (Handle.fifo 0 st.Stdin .O_WRONLY_NONBLOCK),
                 shimIO := some shimIOSet,
                 wg := 1 },
            tasks := [{ dst := Handle.fifo 1 st.Stdout .O_WRONLY, src := Handle.shimStdout, callsDone := true, running := true }],
            adds := 1,
            opens := [OpenCall.fifo st.Stdin .O_WRONLY_NONBLOCK, OpenCall.fifo st.Stdout .O_WRONLY, OpenCall.fifo st.Stdout .O_RDONLY, OpenCall.fifo st.Stderr .O_WRONLY, OpenCall.fifo st.Stderr .O_RDONLY],
            opened := [Handle.fifo 0 st.Stdin .O_WRONLY_NONBLOCK, Handle.shimStdin, Handle.shimStdout, Handle.shimStderr, Handle.fifo 1 st.Stdout .O_WRONLY, Handle.fifo 2 st.Stdout .O_RDONLY, Handle.fifo 3 st.Stderr .O_WRONLY] },
         some (openFailed st.Stderr e))) ∨
    (∃ e, env.OpenFifo 0 st.Stdin .O_WRONLY_NONBLOCK = none ∧ st.Terminal = false ∧ env.initializeIO st.RootUID st.RootGID = none ∧ env.OpenFifo 1 st.Stdout .O_WRONLY = none ∧ env.OpenFifo 2 st.Stdout .O_RDONLY = none ∧ env.OpenFifo 3 st.Stderr .O_WRONLY = none ∧ env.OpenFifo 4 st.Stderr .O_RDONLY = none ∧ env.OpenFifo 5 st.Stdin .O_RDONLY = some e ∧
      process.openIO env (fresh id runtime st) =
        ({ fresh id runtime st with
            p := { (fresh id runtime st).p with
                 stdio := true,
                 stdinCloser := some (Handle.fifo 0 st.Stdin .O_WRONLY_NONBLOCK),
                 shimIO := some shimIOSet,
                 wg := 2 },
            tasks := [{ dst := Handle.fifo 1 st.Stdout .O_WRONLY, src := Handle.shimStdout, callsDone := true, running := true }, { dst := Handle.fifo 3 st.Stderr .O_WRONLY, src := Handle.shimStderr, callsDone := true, running := true }],
            adds := 2,
            opens := [OpenCall.fifo st.Stdin .O_WRONLY_NONBLOCK, OpenCall.fifo st.Stdout .O_WRONLY, OpenCall.fifo st.Stdout .O_RDONLY, OpenCall.fifo st.Stderr .O_WRONLY, OpenCall.fifo st.Stderr .O_RDONLY, OpenCall.fifo st.Stdin .O_RDONLY],
            opened := [Handle.fifo 0 st.Stdin .O_WRONLY_NONBLOCK, Handle.shimStdin, Handle.shimStdout, Handle.shimStderr, Handle.fifo 1 st.Stdout .O_WRONLY, Handle.fifo 2 st.Stdout .O_RDONLY, Handle.fifo 3 st.Stderr .O_WRONLY, Handle.fifo 4 st.Stderr .O_RDONLY] },
         some (openFailed st.Stdin e))) ∨
    (env.OpenFifo 0 st.Stdin .O_WRONLY_NONBLOCK = none ∧ st.Terminal = false ∧ env.initializeIO st.RootUID st.RootGID = none ∧ env.OpenFifo 1 st.Stdout .O_WRONLY = none ∧ env.OpenFifo 2 st.Stdout .O_RDONLY = none ∧ env.OpenFifo 3 st.Stderr .O_WRONLY = none ∧ env.OpenFifo 4 st.Stderr .O_RDONLY = none ∧ env.OpenFifo 5 st.Stdin .O_RDONLY = none ∧
      process.openIO env (fresh id runtime st) =
        ({ fresh id runtime st with
            p := { (fresh id runtime st).p with
                 stdio := true,
                 stdinCloser := some (Handle.fifo 0 st.Stdin .O_WRONLY_NONBLOCK),
                 shimIO := some shimIOSet,
                 ioCleanupFn := some [Handle.fifo 1 st.Stdout .O_WRONLY, Handle.fifo 2 st.Stdout .O_RDONLY, Handle.fifo 3 st.Stderr .O_WRONLY, Handle.fifo 4 st.Stderr .O_RDONLY, Handle.shimStdin, Handle.fifo 5 st.Stdin .O_RDONLY],
                 wg := 2 },
            tasks := [{ dst := Handle.fifo 1 st.Stdout .O_WRONLY, src := Handle.shimStdout, callsDone := true, running := true }, { dst := Handle.fifo 3 st.Stderr .O_WRONLY, src := Handle.shimStderr, callsDone := true, running := true }, { dst := Handle.shimStdin, src := Handle.fifo 5 st.Stdin .O_RDONLY, callsDone := false, running := true }],
            adds := 2,
            opens := [OpenCall.fifo st.Stdin .O_WRONLY_NONBLOCK, OpenCall.fifo st.Stdout .O_WRONLY, OpenCall.fifo st.Stdout .O_RDONLY, OpenCall.fifo st.Stderr .O_WRONLY, OpenCall.fifo st.Stderr .O_RDONLY, OpenCall.fifo st.Stdin .O_RDONLY],
            opened := [Handle.fifo 0 st.Stdin .O_WRONLY_NONBLOCK, Handle.shimStdin, Handle.shimStdout, Handle.shimStderr, Handle.fifo 1 st.Stdout .O_WRONLY, Handle.fifo 2 st.Stdout .O_RDONLY, Handle.fifo 3 st.Stderr .O_WRONLY, Handle.fifo 4 st.Stderr .O_RDONLY, Handle.fifo 5 st.Stdin .O_RDONLY] },
         none)) := by
  rcases h0 : env.OpenFifo 0 st.Stdin .O_WRONLY_NONBLOCK with _ | x
  swap
  · exact Or.inl ⟨x, rfl, by simp [process.openIO, fresh, OpenFifo, NewConsoleSocket, openPairs, dest, go, Add, shimIOSet, openFailed, h0]⟩
  right
  cases hT : st.Terminal
  swap
  · rcases hg : env.Getwd with x | cwd
    · exact Or.inl ⟨x, rfl, rfl, rfl, by simp [process.openIO, fresh, OpenFifo, NewConsoleSocket, openPairs, dest, go, Add, shimIOSet, openFailed, h0, hT, hg]⟩
    right
    rcases hs : env.NewConsoleSocket (env.Join cwd "pty.sock") with _ | x
    swap
    · exact Or.inl ⟨cwd, x, rfl, rfl, rfl, hs, by simp [process.openIO, fresh, OpenFifo, NewConsoleSocket, openPairs, dest, go, Add, shimIOSet, openFailed, h0, hT, hg, hs]⟩
    right
    exact Or.inl ⟨cwd, rfl, rfl, rfl, hs, by simp [process.openIO, fresh, OpenFifo, NewConsoleSocket, openPairs, dest, go, Add, shimIOSet, openFailed, h0, hT, hg, hs]⟩
  right; right; right
  rcases hi : env.initializeIO st.RootUID st.RootGID with _ | x
  swap
  · exact Or.inl ⟨x, rfl, rfl, rfl, by simp [process.openIO, fresh, OpenFifo, NewConsoleSocket, openPairs, dest, go, Add, shimIOSet, openFailed, h0, hT, hi]⟩
  right
  rcases h1 : env.OpenFifo 1 st.Stdout .O_WRONLY with _ | x
  swap
  · exact Or.inl ⟨x, rfl, rfl, rfl, rfl, by simp [process.openIO, fresh, OpenFifo, NewConsoleSocket, openPairs, dest, go, Add, shimIOSet, openFailed, h0, hT, hi, h1]⟩
  right
  rcases h2 : env.OpenFifo 2 st.Stdout .O_RDONLY with _ | x
  swap
  · exact Or.inl ⟨x, rfl, rfl, rfl, rfl, rfl, by simp [process.openIO, fresh, OpenFifo, NewConsoleSocket, openPairs, dest, go, Add, shimIOSet, openFailed, h0, hT, hi, h1, h2]⟩
  right
  rcases h3 : env.OpenFifo 3 st.Stderr .O_WRONLY with _ | x
  swap
  · exact Or.inl ⟨x, rfl, rfl, rfl, rfl, rfl, rfl, by simp [process.openIO, fresh, OpenFifo, NewConsoleSocket, openPairs, dest, go, Add, shimIOSet, openFailed, h0, hT, hi, h1, h2, h3]⟩
  right
  rcases h4 : env.OpenFifo 4 st.Stderr .O_RDONLY with _ | x
  swap
  · exact Or.inl ⟨x, rfl, rfl, rfl, rfl, rfl, rfl, rfl, by simp [process.openIO, fresh, OpenFifo, NewConsoleSocket, openPairs, dest, go, Add, shimIOSet, openFailed, h0, hT, hi, h1, h2, h3, h4]⟩
  right
  rcases h5 : env.OpenFifo 5 st.Stdin .O_RDONLY with _ | x
  swap
  · exact Or.inl ⟨x, rfl, rfl, rfl, rfl, rfl, rfl, rfl, rfl, by simp [process.openIO, fresh, OpenFifo, NewConsoleSocket, openPairs, dest, go, Add, shimIOSet, openFailed, h0, hT, hi, h1, h2, h3, h4, h5]⟩
  right
  exact ⟨rfl, rfl, rfl, rfl, rfl, rfl, rfl, rfl, by simp [process.openIO, fresh, OpenFifo, NewConsoleSocket, openPairs, dest, go, Add, shimIOSet, openFailed, h0, hT, hi, h1, h2, h3, h4, h5]⟩

theorem consoleTask_cases (env : Env) (s : Sys) :
    (∃ e, env.ReceiveMaster = some e ∧ consoleTask env s = s) ∨
    (∃ e, env.ReceiveMaster = none ∧ env.OpenFifo s.opens.length s.p.state.Stdin .O_RDONLY = some e ∧
      consoleTask env s =
        { s with
          p := { s.p with console := some Handle.ptyMaster },
          opened := s.opened ++ [Handle.ptyMaster],
          opens := s.opens ++ [OpenCall.fifo s.p.state.Stdin .O_RDONLY] }) ∨
    (∃ e, env.ReceiveMaster = none ∧ env.OpenFifo s.opens.length s.p.state.Stdin .O_RDONLY = none ∧
      env.OpenFifo (s.opens.length + 1) s.p.state.Stdout .O_WRONLY = some e ∧
      consoleTask env s =
        { s with
          p := { s.p with console := some Handle.ptyMaster },
          tasks := s.tasks ++ [{ dst := Handle.ptyMaster, src := Handle.fifo s.opens.length s.p.state.Stdin .O_RDONLY, callsDone := false, running := true }],
          opened := s.opened ++ [Handle.ptyMaster, Handle.fifo s.opens.length s.p.state.Stdin .O_RDONLY],
          opens := s.opens ++ [OpenCall.fifo s.p.state.Stdin .O_RDONLY, OpenCall.fifo s.p.state.Stdout .O_WRONLY] }) ∨
    (∃ e, env.ReceiveMaster = none ∧ env.OpenFifo s.opens.length s.p.state.Stdin .O_RDONLY = none ∧
      env.OpenFifo (s.opens.length + 1) s.p.state.Stdout .O_WRONLY = none ∧
      env.OpenFifo (s.opens.length + 2) s.p.state.Stdout .O_RDONLY = some e ∧
      consoleTask env s =
        { s with
          p := { s.p with console := some Handle.ptyMaster },
          tasks := s.tasks ++ [{ dst := Handle.ptyMaster, src := Handle.fifo s.opens.length s.p.state.Stdin .O_RDONLY, callsDone := false, running := true }],
          opened := s.opened ++ [Handle.ptyMaster, Handle.fifo s.opens.length s.p.state.Stdin .O_RDONLY, Handle.fifo (s.opens.length + 1) s.p.state.Stdout .O_WRONLY],
          opens := s.opens ++ [OpenCall.fifo s.p.state.Stdin .O_RDONLY, OpenCall.fifo s.p.state.Stdout .O_WRONLY, OpenCall.fifo s.p.state.Stdout .O_RDONLY] }) ∨
    (env.ReceiveMaster = none ∧ env.OpenFifo s.opens.length s.p.state.Stdin .O_RDONLY = none ∧
      env.OpenFifo (s.opens.length + 1) s.p.state.Stdout .O_WRONLY = none ∧
      env.OpenFifo (s.opens.length + 2) s.p.state.Stdout .O_RDONLY = none ∧
      consoleTask env s =
        { s with
          p := { s.p with console := some Handle.ptyMaster, ioCleanupFn := some [Handle.ptyMaster, Handle.fifo (s.opens.length + 2) s.p.state.Stdout .O_RDONLY, Handle.fifo (s.opens.length + 1) s.p.state.Stdout .O_WRONLY], wg := s.p.wg + 1 },
          tasks := s.tasks ++ [{ dst := Handle.ptyMaster, src := Handle.fifo s.opens.length s.p.state.Stdin .O_RDONLY, callsDone := false, running := true }, { dst := Handle.fifo (s.opens.length + 1) s.p.state.Stdout .O_WRONLY, src := Handle.ptyMaster, callsDone := true, running := true }],
          opened := s.opened ++ [Handle.ptyMaster, Handle.fifo s.opens.length s.p.state.Stdin .O_RDONLY, Handle.fifo (s.opens.length + 1) s.p.state.Stdout .O_WRONLY, Handle.fifo (s.opens.length + 2) s.p.state.Stdout .O_RDONLY],
          opens := s.opens ++ [OpenCall.fifo s.p.state.Stdin .O_RDONLY, OpenCall.fifo s.p.state.Stdout .O_WRONLY, OpenCall.fifo s.p.state.Stdout .O_RDONLY],
          adds := s.adds + 1 }) := by
  rcases hm : env.ReceiveMaster with _ | x
  swap
  · exact Or.inl ⟨x, rfl, by simp [consoleTask, hm]⟩
  right
  rcases h2 : env.OpenFifo s.opens.length s.p.state.Stdin .O_RDONLY with _ | x
  swap
  · exact Or.inl ⟨x, rfl, rfl, by simp [consoleTask, OpenFifo, go, Add, hm, h2]⟩
  right
  rcases h3 : env.OpenFifo (s.opens.length + 1) s.p.state.Stdout .O_WRONLY with _ | x
  swap
  · exact Or.inl ⟨x, rfl, rfl, rfl, by simp [consoleTask, OpenFifo, go, Add, hm, h2, h3]⟩
  right
  rcases h4 : env.OpenFifo (s.opens.length + 2) s.p.state.Stdout .O_RDONLY with _ | x
  swap
  · exact Or.inl ⟨x, rfl, rfl, rfl, rfl, by simp [consoleTask, OpenFifo, go, Add, hm, h2, h3, h4]⟩
  right
  exact ⟨rfl, rfl, rfl, rfl, by simp [consoleTask, OpenFifo, go, Add, hm, h2, h3, h4]⟩
theorem exec_openIO_fresh (env : Env) (id runtime : String) (st : State) (es : List Event) :
    exec env (Event.openIO :: es) (fresh id runtime st) =
      exec env es { ( process.openIO env (fresh id runtime st)).1 with
        result := some ( process.openIO env (fresh id runtime st)).2 } := by
  simp [exec, step, enabled, apply, fresh]

theorem exec_append (env : Env) (es fs : List Event) (s : Sys) :
    exec env (es ++ fs) s = exec env fs (exec env es s) := by
  simp [exec, List.foldl_append]

theorem exec_closes_of_no_cleanup (env : Env) (es : List Event) (s : Sys) (h : settled s)
    (hc : s.p.ioCleanupFn = none) :
    (exec env es s).closes = s.closes ∧ (exec env es s).p.ioCleanupFn = none := by
  induction es generalizing s with
  | nil => exact ⟨rfl, hc⟩
  | cons e rest ih =>
    obtain ⟨h1, h2, -, -, -, -, -, h8⟩ := step_of_settled env s e h
    obtain ⟨k1, k2⟩ := ih (step env s e) h1 (h2.trans hc)
    refine ⟨?_, k2⟩
    show (exec env rest (step env s e)).closes = s.closes
    rw [k1, h8, hc]
    split <;> simp

theorem wg_zero_iff (s : Sys) (h : Inv s) :
    s.p.wg = 0 ↔ ∀ t ∈ s.tasks, t.callsDone = true → t.running = false := by
  rw [h.2.2]
  simp only [registeredRunning]
  constructor
  · intro h0 t ht hc
    have h1 : List.countP (fun t => t.callsDone && t.running) s.tasks = 0 := by exact_mod_cast h0
    rw [List.countP_eq_zero] at h1
    have := h1 t ht
    simpa [hc] using this
  · intro hall
    have : List.countP (fun t => t.callsDone && t.running) s.tasks = 0 := by
      rw [List.countP_eq_zero]
      intro t ht
      cases hc : t.callsDone
      · simp
      · simp [hall t ht hc]
    rw [this]; rfl

theorem Wait_of_no_cleanup (s : Sys) (hw : s.p.wg = 0) (hc : s.p.ioCleanupFn = none) :
    ∃ s1, process.Wait s = some s1 ∧ s1.closes = s.closes :=
  ⟨waitCleanup { s with waiting := s.waiting + 1 }, by simp [process.Wait, hw],
    by simp [waitCleanup, hc]⟩


theorem barrier_iff_of_flags (s : Sys) (hI : Inv s)
    (hf : s.tasks.map Task.callsDone = [true, true, false]) :
    enabled s Event.waitBarrier = true ↔ taskRunning s 0 = false ∧ taskRunning s 1 = false := by
  rcases ht : s.tasks with _ | ⟨a, _ | ⟨b, _ | ⟨c, _ | ⟨d, l⟩⟩⟩⟩ <;> simp [ht] at hf
  obtain ⟨ha, hb, hc⟩ := hf
  simp only [enabled, decide_eq_true_eq, wg_zero_iff s hI, taskRunning, ht]
  simp [ha, hb, hc]

theorem barrier_iff_of_tty_flags (s : Sys) (hI : Inv s)
    (hf : s.tasks.map Task.callsDone = [false, true]) :
    enabled s Event.waitBarrier = true ↔ taskRunning s 1 = false := by
  rcases ht : s.tasks with _ | ⟨a, _ | ⟨b, _ | ⟨c, l⟩⟩⟩ <;> simp [ht] at hf
  obtain ⟨ha, hb⟩ := hf
  simp only [enabled, decide_eq_true_eq, wg_zero_iff s hI, taskRunning, ht]
  simp [ha, hb]

theorem pastBarrierZero_of_waiting (s : Sys) (h : s.waiting = 0) : pastBarrierZero s := by
  intro hpos; omega


theorem tty_setup_state (env : Env) (id runtime : String) (st : State) (cwd : String)
    (h0 : env.OpenFifo 0 st.Stdin .O_WRONLY_NONBLOCK = none) (hT : st.Terminal = true)
    (hg : env.Getwd = .ok cwd) (hs : env.NewConsoleSocket (env.Join cwd "pty.sock") = none)
    (hm : env.ReceiveMaster = none) (h2 : env.OpenFifo 2 st.Stdin .O_RDONLY = none)
    (h3 : env.OpenFifo 3 st.Stdout .O_WRONLY = none) (h4 : env.OpenFifo 4 st.Stdout .O_RDONLY = none) :
    exec env [Event.openIO, Event.consoleTask] (fresh id runtime st) =
      { fresh id runtime st with
        p := { (fresh id runtime st).p with
               stdio := true,
               stdinCloser := some (Handle.fifo 0 st.Stdin .O_WRONLY_NONBLOCK),
               socket := some (Handle.socket (env.Join cwd "pty.sock")),
               console := some Handle.ptyMaster,
               ioCleanupFn := some [Handle.ptyMaster, Handle.fifo 4 st.Stdout .O_RDONLY,
                 Handle.fifo 3 st.Stdout .O_WRONLY],
               wg := 1 },
        tasks := [{ dst := Handle.ptyMaster, src := Handle.fifo 2 st.Stdin .O_RDONLY,
                    callsDone := false, running := true },
                  { dst := Handle.fifo 3 st.Stdout .O_WRONLY, src := Handle.ptyMaster,
                    callsDone := true, running := true }],
        opens := [OpenCall.fifo st.Stdin .O_WRONLY_NONBLOCK, OpenCall.socket (env.Join cwd "pty.sock"),
                  OpenCall.fifo st.Stdin .O_RDONLY, OpenCall.fifo st.Stdout .O_WRONLY,
                  OpenCall.fifo st.Stdout .O_RDONLY],
        opened := [Handle.fifo 0 st.Stdin .O_WRONLY_NONBLOCK, Handle.socket (env.Join cwd "pty.sock"),
                   Handle.ptyMaster, Handle.fifo 2 st.Stdin .O_RDONLY,
                   Handle.fifo 3 st.Stdout .O_WRONLY, Handle.fifo 4 st.Stdout .O_RDONLY],
        adds := 1,
        result := some none } := by
  simp [exec, step, enabled, apply, process.openIO, consoleTask, OpenFifo, NewConsoleSocket, go, Add,
    fresh, h0, hT, hg, hs, hm, h2, h3, h4]

theorem tty_openIO_ok (env : Env) (id runtime : String) (st : State) (hT : st.Terminal = true)
    (hok : ( process.openIO env (fresh id runtime st)).2 = none) :
    ∃ cwd, env.OpenFifo 0 st.Stdin .O_WRONLY_NONBLOCK = none ∧ env.Getwd = .ok cwd ∧
      env.NewConsoleSocket (env.Join cwd "pty.sock") = none := by
  rcases openIO_fresh_cases env id runtime st with
    ⟨e, h0, h⟩ | ⟨e, h0, hT1, hg, h⟩ | ⟨cwd, e, h0, hT1, hg, hs, h⟩ | ⟨cwd, h0, hT1, hg, hs, h⟩ |
    ⟨e, h0, hT1, hi, h⟩ | ⟨e, h0, hT1, hi, h1, h⟩ | ⟨e, h0, hT1, hi, h1, h2, h⟩ |
    ⟨e, h0, hT1, hi, h1, h2, h3, h⟩ | ⟨e, h0, hT1, hi, h1, h2, h3, h4, h⟩ |
    ⟨e, h0, hT1, hi, h1, h2, h3, h4, h5, h⟩ | ⟨h0, hT1, hi, h1, h2, h3, h4, h5, h⟩
  all_goals first
    | (exfalso; rw [h] at hok; simp at hok; done)
    | (exfalso; rw [hT] at hT1; simp at hT1; done)
    | skip
  exact ⟨cwd, h0, hg, hs⟩


theorem pipe_openIO_ok (env : Env) (id runtime : String) (st : State) (hT : st.Terminal = false)
    (hok : ( process.openIO env (fresh id runtime st)).2 = none) :
    env.OpenFifo 0 st.Stdin .O_WRONLY_NONBLOCK = none ∧ env.initializeIO st.RootUID st.RootGID = none ∧
    env.OpenFifo 1 st.Stdout .O_WRONLY = none ∧ env.OpenFifo 2 st.Stdout .O_RDONLY = none ∧
    env.OpenFifo 3 st.Stderr .O_WRONLY = none ∧ env.OpenFifo 4 st.Stderr .O_RDONLY = none ∧
    env.OpenFifo 5 st.Stdin .O_RDONLY = none := by
  rcases openIO_fresh_cases env id runtime st with
    ⟨e, h0, h⟩ | ⟨e, h0, hT1, hg, h⟩ | ⟨cwd, e, h0, hT1, hg, hs, h⟩ | ⟨cwd, h0, hT1, hg, hs, h⟩ |
    ⟨e, h0, hT1, hi, h⟩ | ⟨e, h0, hT1, hi, h1, h⟩ | ⟨e, h0, hT1, hi, h1, h2, h⟩ |
    ⟨e, h0, hT1, hi, h1, h2, h3, h⟩ | ⟨e, h0, hT1, hi, h1, h2, h3, h4, h⟩ |
    ⟨e, h0, hT1, hi, h1, h2, h3, h4, h5, h⟩ | ⟨h0, hT1, hi, h1, h2, h3, h4, h5, h⟩
  all_goals first
    | (exfalso; rw [h] at hok; simp at hok; done)
    | (exfalso; rw [hT] at hT1; simp at hT1; done)
    | skip
  exact ⟨h0, hi, h1, h2, h3, h4, h5⟩

theorem pipe_setup_state (env : Env) (id runtime : String) (st : State)
    (hT : st.Terminal = false) (h0 : env.OpenFifo 0 st.Stdin .O_WRONLY_NONBLOCK = none)
    (hi : env.initializeIO st.RootUID st.RootGID = none)
    (h1 : env.OpenFifo 1 st.Stdout .O_WRONLY = none) (h2 : env.OpenFifo 2 st.Stdout .O_RDONLY = none)
    (h3 : env.OpenFifo 3 st.Stderr .O_WRONLY = none) (h4 : env.OpenFifo 4 st.Stderr .O_RDONLY = none)
    (h5 : env.OpenFifo 5 st.Stdin .O_RDONLY = none) :
    exec env [Event.openIO, Event.consoleTask] (fresh id runtime st) =
      { fresh id runtime st with
        p := { (fresh id runtime st).p with
               stdio := true,
               stdinCloser := some (Handle.fifo 0 st.Stdin .O_WRONLY_NONBLOCK),
               shimIO := some shimIOSet,
               ioCleanupFn := some [Handle.fifo 1 st.Stdout .O_WRONLY, Handle.fifo 2 st.Stdout .O_RDONLY,
                 Handle.fifo 3 st.Stderr .O_WRONLY, Handle.fifo 4 st.Stderr .O_RDONLY,
                 Handle.shimStdin, Handle.fifo 5 st.Stdin .O_RDONLY],
               wg := 2 },
        tasks := [{ dst := Handle.fifo 1 st.Stdout .O_WRONLY, src := Handle.shimStdout,
                    callsDone := true, running := true },
                  { dst := Handle.fifo 3 st.Stderr .O_WRONLY, src := Handle.shimStderr,
                    callsDone := true, running := true },
                  { dst := Handle.shimStdin, src := Handle.fifo 5 st.Stdin .O_RDONLY,
                    callsDone := false, running := true }],
        opens := [OpenCall.fifo st.Stdin .O_WRONLY_NONBLOCK, OpenCall.fifo st.Stdout .O_WRONLY,
                  OpenCall.fifo st.Stdout .O_RDONLY, OpenCall.fifo st.Stderr .O_WRONLY,
                  OpenCall.fifo st.Stderr .O_RDONLY, OpenCall.fifo st.Stdin .O_RDONLY],
        opened := [Handle.fifo 0 st.Stdin .O_WRONLY_NONBLOCK, Handle.shimStdin, Handle.shimStdout,
                   Handle.shimStderr, Handle.fifo 1 st.Stdout .O_WRONLY,
                   Handle.fifo 2 st.Stdout .O_RDONLY, Handle.fifo 3 st.Stderr .O_WRONLY,
                   Handle.fifo 4 st.Stderr .O_RDONLY, Handle.fifo 5 st.Stdin .O_RDONLY],
        adds := 2,
        result := some none } := by
  simp [exec, step, enabled, apply, process.openIO, OpenFifo, openPairs, dest, go, Add, shimIOSet,
    fresh, h0, hT, hi, h1, h2, h3, h4, h5]


theorem exec_setup_not_pending (env : Env) (id runtime : String) (st : State)
    (h : ( process.openIO env (fresh id runtime st)).1.consolePending = false) :
    exec env [Event.openIO, Event.consoleTask] (fresh id runtime st) =
      { ( process.openIO env (fresh id runtime st)).1 with
        result := some ( process.openIO env (fresh id runtime st)).2 } := by
  have hr : (fresh id runtime st).result = none := rfl
  simp [exec, step, enabled, apply, hr, h]

theorem exec_setup_pending (env : Env) (id runtime : String) (st : State)
    (h : ( process.openIO env (fresh id runtime st)).1.consolePending = true) :
    exec env [Event.openIO, Event.consoleTask] (fresh id runtime st) =
      { consoleTask env { ( process.openIO env (fresh id runtime st)).1 with
          result := some ( process.openIO env (fresh id runtime st)).2 } with
        consolePending := false } := by
  have hr : (fresh id runtime st).result = none := rfl
  simp [exec, step, enabled, apply, hr, h]


/-! ## The statement-level system: invariants -/

theorem FineInv_ffresh (id runtime : String) (st : State) : FineInv (ffresh id runtime st) := by
  simp [FineInv, ffresh, fresh, consoleRunning, pendingAdds, registered, registeredEnded,
    registeredRunning]

theorem NewConsoleSocket_frame (env : Env) (path : String) (s : Sys) :
    (NewConsoleSocket env path s).1.tasks = s.tasks ∧ (NewConsoleSocket env path s).1.adds = s.adds ∧
    (NewConsoleSocket env path s).1.dones = s.dones ∧ (NewConsoleSocket env path s).1.p = s.p ∧
    (NewConsoleSocket env path s).1.closes = s.closes ∧
    (NewConsoleSocket env path s).1.waiting = s.waiting ∧
    (NewConsoleSocket env path s).1.result = s.result ∧
    (NewConsoleSocket env path s).1.consolePending = s.consolePending := by
  rcases h : env.NewConsoleSocket path with _ | e <;> simp [NewConsoleSocket, h]

theorem FineInv_mainStep (env : Env) (F : Fine) (h : FineInv F) : FineInv (mainStep env F) := by
  obtain ⟨s, m, c⟩ := F
  obtain ⟨h1, h2, h3, h4, h5, h6⟩ := h
  simp only [registered, registeredEnded, registeredRunning] at h4 h5 h6
  cases m
  case stdio =>
    simp_all [FineInv, mainStep, returnErr, consoleRunning, pendingAdds, registered, registeredEnded,
      registeredRunning, Add, go, loopNext]
  case openStdinW =>
    obtain ⟨f1, f2, f3, f4, -, -, f7, f8⟩ := OpenFifo_frame env s.p.state.Stdin .O_WRONLY_NONBLOCK s
    simp only [mainStep]
    rcases hA : OpenFifo env s.p.state.Stdin .O_WRONLY_NONBLOCK s with ⟨s1, _ | hd⟩ <;>
      rw [hA] at f1 f2 f3 f4 f7 f8 <;> cases hT : s.p.state.Terminal <;>
      simp_all [FineInv, mainStep, returnErr, consoleRunning, pendingAdds, registered, registeredEnded,
      registeredRunning, Add, go, loopNext]

  case getwd =>
    rcases hg : env.Getwd with e | cwd <;>
    simp_all [FineInv, mainStep, returnErr, consoleRunning, pendingAdds, registered, registeredEnded,
      registeredRunning, Add, go, loopNext]
  case newSocket cwd =>
    obtain ⟨f1, f2, f3, f4, -, -, f7, f8⟩ := NewConsoleSocket_frame env (env.Join cwd "pty.sock") s
    simp only [mainStep]
    rcases hA : NewConsoleSocket env (env.Join cwd "pty.sock") s with ⟨s1, _ | hd⟩ <;>
      rw [hA] at f1 f2 f3 f4 f7 f8 <;>
      simp_all [FineInv, mainStep, returnErr, consoleRunning, pendingAdds, registered, registeredEnded,
      registeredRunning, Add, go, loopNext]
  case spawn socket =>
    simp_all [FineInv, mainStep, returnErr, consoleRunning, pendingAdds, registered, registeredEnded,
      registeredRunning, Add, go, loopNext]
  case shimInit =>
    rcases hi : env.initializeIO s.p.state.RootUID s.p.state.RootGID with _ | e <;>
    simp_all [FineInv, mainStep, returnErr, consoleRunning, pendingAdds, registered, registeredEnded,
      registeredRunning, Add, go, loopNext]
  case pairOpenW name src rest cl =>
    obtain ⟨f1, f2, f3, f4, -, -, f7, f8⟩ := OpenFifo_frame env name .O_WRONLY s
    simp only [mainStep]
    rcases hA : OpenFifo env name .O_WRONLY s with ⟨s1, _ | hd⟩ <;>
      rw [hA] at f1 f2 f3 f4 f7 f8 <;>
      simp_all [FineInv, mainStep, returnErr, consoleRunning, pendingAdds, registered, registeredEnded,
      registeredRunning, Add, go, loopNext]

  case pairOpenR name src rest cl fw =>
    obtain ⟨f1, f2, f3, f4, -, -, f7, f8⟩ := OpenFifo_frame env name .O_RDONLY s
    simp only [mainStep]
    rcases hA : OpenFifo env name .O_RDONLY s with ⟨s1, _ | hd⟩ <;>
      rw [hA] at f1 f2 f3 f4 f7 f8 <;>
      simp_all [FineInv, mainStep, returnErr, consoleRunning, pendingAdds, registered, registeredEnded,
      registeredRunning, Add, go, loopNext]

  case destAdd src rest cl fw fr =>
    simp_all [FineInv, mainStep, returnErr, consoleRunning, pendingAdds, registered, registeredEnded,
      registeredRunning, Add, go, loopNext]
  case destGo src rest cl fw fr =>
    simp_all [FineInv, mainStep, returnErr, consoleRunning, pendingAdds, registered, registeredEnded,
      registeredRunning, Add, go, loopNext]
  case pairAppend rest cl fw fr =>
    rcases rest with _ | ⟨⟨name, src⟩, rest⟩ <;>
    simp_all [FineInv, mainStep, returnErr, consoleRunning, pendingAdds, registered, registeredEnded,
      registeredRunning, Add, go, loopNext]
  case openStdinR cl =>
    obtain ⟨f1, f2, f3, f4, -, -, f7, f8⟩ := OpenFifo_frame env s.p.state.Stdin .O_RDONLY s
    simp only [mainStep]
    rcases hA : OpenFifo env s.p.state.Stdin .O_RDONLY s with ⟨s1, _ | hd⟩ <;>
      rw [hA] at f1 f2 f3 f4 f7 f8 <;>
      simp_all [FineInv, mainStep, returnErr, consoleRunning, pendingAdds, registered, registeredEnded,
      registeredRunning, Add, go, loopNext]

  case appendStdin cl f =>
    simp_all [FineInv, mainStep, returnErr, consoleRunning, pendingAdds, registered, registeredEnded,
      registeredRunning, Add, go, loopNext]
  case setCleanup cl f =>
    simp_all [FineInv, mainStep, returnErr, consoleRunning, pendingAdds, registered, registeredEnded,
      registeredRunning, Add, go, loopNext]
  case goStdin f =>
    simp_all [FineInv, mainStep, returnErr, consoleRunning, pendingAdds, registered, registeredEnded,
      registeredRunning, Add, go, loopNext]
  case returnNil =>
    simp_all [FineInv, mainStep, returnErr, consoleRunning, pendingAdds, registered, registeredEnded,
      registeredRunning, Add, go, loopNext]
  case returned =>
    simp_all [FineInv, mainStep, returnErr, consoleRunning, pendingAdds, registered, registeredEnded,
      registeredRunning, Add, go, loopNext]

theorem FineInv_consoleStep (env : Env) (F : Fine) (h : FineInv F) :
    FineInv (consoleStep env F) := by
  obtain ⟨s, m, c⟩ := F
  obtain ⟨h1, h2, h3, h4, h5, h6⟩ := h
  simp only [registered, registeredEnded, registeredRunning] at h4 h5 h6
  cases c
  case notStarted =>
    simp_all [FineInv, consoleStep, consoleEnd, consoleRunning, pendingAdds, registered, registeredEnded,
      registeredRunning, Add, go]
  case recv socket =>
    rcases hm : env.ReceiveMaster with _ | e <;>
    simp_all [FineInv, consoleStep, consoleEnd, consoleRunning, pendingAdds, registered, registeredEnded,
      registeredRunning, Add, go]
  case openStdin master =>
    obtain ⟨f1, f2, f3, f4, -, -, f7, f8⟩ := OpenFifo_frame env s.p.state.Stdin .O_RDONLY s
    simp only [consoleStep]
    rcases hA : OpenFifo env s.p.state.Stdin .O_RDONLY s with ⟨s1, _ | hd⟩ <;>
      rw [hA] at f1 f2 f3 f4 f7 f8 <;>
      simp_all [FineInv, consoleStep, consoleEnd, consoleRunning, pendingAdds, registered, registeredEnded,
      registeredRunning, Add, go]

  case goIn master stdin =>
    simp_all [FineInv, consoleStep, consoleEnd, consoleRunning, pendingAdds, registered, registeredEnded,
      registeredRunning, Add, go]
  case openOutW master =>
    obtain ⟨f1, f2, f3, f4, -, -, f7, f8⟩ := OpenFifo_frame env s.p.state.Stdout .O_WRONLY s
    simp only [consoleStep]
    rcases hA : OpenFifo env s.p.state.Stdout .O_WRONLY s with ⟨s1, _ | hd⟩ <;>
      rw [hA] at f1 f2 f3 f4 f7 f8 <;>
      simp_all [FineInv, consoleStep, consoleEnd, consoleRunning, pendingAdds, registered, registeredEnded,
      registeredRunning, Add, go]

  case openOutR master stdoutw =>
    obtain ⟨f1, f2, f3, f4, -, -, f7, f8⟩ := OpenFifo_frame env s.p.state.Stdout .O_RDONLY s
    simp only [consoleStep]
    rcases hA : OpenFifo env s.p.state.Stdout .O_RDONLY s with ⟨s1, _ | hd⟩ <;>
      rw [hA] at f1 f2 f3 f4 f7 f8 <;>
      simp_all [FineInv, consoleStep, consoleEnd, consoleRunning, pendingAdds, registered, registeredEnded,
      registeredRunning, Add, go]

  case add master stdoutw stdoutr =>
    rcases h3 (by simp) with hm | hm <;> subst hm <;>
    simp_all [FineInv, consoleStep, consoleEnd, consoleRunning, pendingAdds, registered, registeredEnded,
      registeredRunning, Add, go]
  case setCleanup master stdoutw stdoutr =>
    simp_all [FineInv, consoleStep, consoleEnd, consoleRunning, pendingAdds, registered, registeredEnded,
      registeredRunning, Add, go]
  case goOut master stdoutw =>
    rcases h3 (by simp) with hm | hm <;> subst hm <;>
    simp_all [FineInv, consoleStep, consoleEnd, consoleRunning, pendingAdds, registered, registeredEnded,
      registeredRunning, Add, go]
  case returnNil =>
    simp_all [FineInv, consoleStep, consoleEnd, consoleRunning, pendingAdds, registered, registeredEnded,
      registeredRunning, Add, go]
  case ended =>
    simp_all [FineInv, consoleStep, consoleEnd, consoleRunning, pendingAdds, registered, registeredEnded,
      registeredRunning, Add, go]
theorem step_wait_frame (env : Env) (s : Sys) (e : Event)
    (he : e = Event.waitBarrier ∨ e = Event.waitCleanup) :
    (step env s e).tasks = s.tasks ∧ (step env s e).adds = s.adds ∧
    (step env s e).dones = s.dones ∧ (step env s e).p = s.p ∧
    (step env s e).result = s.result ∧ (step env s e).consolePending = s.consolePending ∧
    (step env s e).opens = s.opens ∧ (step env s e).opened = s.opened := by
  rcases he with rfl | rfl
  · unfold step; split <;> simp [apply]
  · unfold step
    split
    · simp only [apply, waitCleanup]; split <;> simp
    · simp

theorem step_copyEnds_frame (env : Env) (s : Sys) (i : Nat) (r : CopyEnd) :
    (step env s (Event.copyEnds i r)).adds = s.adds ∧
    (step env s (Event.copyEnds i r)).result = s.result ∧
    (step env s (Event.copyEnds i r)).consolePending = s.consolePending ∧
    (step env s (Event.copyEnds i r)).opens = s.opens ∧
    (step env s (Event.copyEnds i r)).opened = s.opened ∧
    (step env s (Event.copyEnds i r)).closes = s.closes ∧
    (step env s (Event.copyEnds i r)).waiting = s.waiting ∧
    (step env s (Event.copyEnds i r)).p.state = s.p.state ∧
    (step env s (Event.copyEnds i r)).p.ioCleanupFn = s.p.ioCleanupFn ∧
    (step env s (Event.copyEnds i r)).tasks.map (fun t => (t.dst, t.src, t.callsDone)) =
      s.tasks.map (fun t => (t.dst, t.src, t.callsDone)) := by
  unfold step
  split
  · rename_i hen
    simp only [enabled, taskRunning] at hen
    rcases ht : s.tasks[i]? with _ | t
    · simp [ht] at hen
    · have hm := map_set_of_eq (fun t => (t.dst, t.src, t.callsDone)) s.tasks i t
        { t with running := false } ht rfl
      have happ : apply env s (Event.copyEnds i r) =
          if t.callsDone then Done { s with tasks := s.tasks.set i { t with running := false } }
          else { s with tasks := s.tasks.set i { t with running := false } } := by
        simp [apply, copyEnds, ht]
      rw [happ]
      split
      · exact ⟨rfl, rfl, rfl, rfl, rfl, rfl, rfl, rfl, rfl, hm⟩
      · exact ⟨rfl, rfl, rfl, rfl, rfl, rfl, rfl, rfl, rfl, hm⟩
  · simp

theorem step_copyEnds_counts (env : Env) (s : Sys) (i : Nat) (r : CopyEnd) (k : Nat)
    (h4 : s.adds = registered s + k) (h5 : s.dones = registeredEnded s)
    (h6 : s.p.wg = ((registeredRunning s + k : Nat) : Int)) :
    (step env s (Event.copyEnds i r)).adds = registered (step env s (Event.copyEnds i r)) + k ∧
    (step env s (Event.copyEnds i r)).dones = registeredEnded (step env s (Event.copyEnds i r)) ∧
    (step env s (Event.copyEnds i r)).p.wg =
      ((registeredRunning (step env s (Event.copyEnds i r)) + k : Nat) : Int) := by
  unfold step
  split
  · rename_i hen
    simp only [enabled, taskRunning] at hen
    rcases ht : s.tasks[i]? with _ | t
    · simp [ht] at hen
    · simp only [ht] at hen
      obtain ⟨c1, c2, c3⟩ := countP_set_ended s.tasks i t ht hen
      simp only [registered, registeredEnded, registeredRunning] at h4 h5 h6 ⊢
      simp only [apply, copyEnds, ht]
      cases hc : t.callsDone
      · simp only [hc, Bool.false_eq_true, if_false, Nat.add_zero] at c1 c2 c3 ⊢
        rw [c1, c2, c3]
        exact ⟨h4, h5, h6⟩
      · simp only [hc, if_true] at c1 c2 c3 ⊢
        simp only [Done]
        rw [c1, c3]
        refine ⟨h4, by omega, ?_⟩
        rw [h6]; push_cast; omega
  · exact ⟨h4, h5, h6⟩

theorem FineInv_fstep (env : Env) (F : Fine) (e : FEvent) (h : FineInv F) :
    FineInv (fstep env F e) := by
  cases e with
  | main => exact FineInv_mainStep env F h
  | console => exact FineInv_consoleStep env F h
  | copyEnds i r =>
    obtain ⟨h1, h2, h3, h4, h5, h6⟩ := h
    obtain ⟨-, f2, f3, -⟩ := step_copyEnds_frame env F.sys i r
    obtain ⟨c1, c2, c3⟩ := step_copyEnds_counts env F.sys i r (pendingAdds F) h4 h5 h6
    exact ⟨by simpa [fstep, f2] using h1, by simpa [fstep, f3, consoleRunning] using h2, h3,
      c1, c2, c3⟩
  | waitBarrier =>
    obtain ⟨h1, h2, h3, h4, h5, h6⟩ := h
    obtain ⟨f1, f2, f3, f4, f5, f6, -⟩ := step_wait_frame env F.sys Event.waitBarrier (Or.inl rfl)
    refine ⟨by simpa [fstep, f5] using h1, by simpa [fstep, f6, consoleRunning] using h2, h3, ?_, ?_, ?_⟩
    · simpa [fstep, registered, pendingAdds, f1, f2] using h4
    · simpa [fstep, registeredEnded, f1, f3] using h5
    · simpa [fstep, registeredRunning, pendingAdds, f1, f4] using h6
  | waitCleanup =>
    obtain ⟨h1, h2, h3, h4, h5, h6⟩ := h
    obtain ⟨f1, f2, f3, f4, f5, f6, -⟩ := step_wait_frame env F.sys Event.waitCleanup (Or.inr rfl)
    refine ⟨by simpa [fstep, f5] using h1, by simpa [fstep, f6, consoleRunning] using h2, h3, ?_, ?_, ?_⟩
    · simpa [fstep, registered, pendingAdds, f1, f2] using h4
    · simpa [fstep, registeredEnded, f1, f3] using h5
    · simpa [fstep, registeredRunning, pendingAdds, f1, f4] using h6

theorem FineInv_fexec (env : Env) (fs : List FEvent) (F : Fine) (h : FineInv F) :
    FineInv (fexec env fs F) := by
  induction fs generalizing F with
  | nil => exact h
  | cons e rest ih => exact ih _ (FineInv_fstep env F e h)
theorem OpenFifo_opens (env : Env) (path : String) (flag : OpenFlag) (s s1 : Sys)
    (r : Except String Handle) (h : OpenFifo env path flag s = (s1, r)) :
    s1.opens.length = s.opens.length + 1 ∧ s1.tasks = s.tasks ∧ s1.p = s.p ∧
    s1.result = s.result ∧
    (∀ hd, r = .ok hd → hd = Handle.fifo s.opens.length path flag) := by
  rcases he : env.OpenFifo s.opens.length path flag with _ | e <;>
    simp only [OpenFifo, he, Prod.mk.injEq] at h <;>
    obtain ⟨h1, h2⟩ := h <;> subst h1 <;> subst h2 <;> simp

theorem pipeShape_ffresh (id runtime : String) (st : State) : pipeShape st (ffresh id runtime st) := by
  simp [pipeShape, ffresh, fresh, launched]

theorem pipeShape_mainStep (env : Env) (st : State) (hT : st.Terminal = false) (F : Fine)
    (h : pipeShape st F) : pipeShape st (mainStep env F) := by
  obtain ⟨s, m, c⟩ := F
  obtain ⟨h1, h2, h3⟩ := h
  simp only at h1 h2
  subst h2
  cases m
  case stdio =>
    simp_all [pipeShape, mainStep, returnErr, launched, Add, go, loopNext, shimIOSet]
  case openStdinW =>
    simp only [mainStep]
    rcases hA : OpenFifo env s.p.state.Stdin .O_WRONLY_NONBLOCK s with ⟨s1, _ | hd⟩ <;>
      obtain ⟨f1, f2, f3, f4, f5⟩ := OpenFifo_opens env _ _ _ _ _ hA <;>
      simp_all [pipeShape, mainStep, returnErr, launched, Add, go, loopNext, shimIOSet]

  case getwd => exact absurd h3 (by simp)
  case newSocket cwd => exact absurd h3 (by simp)
  case spawn socket => exact absurd h3 (by simp)
  case shimInit =>
    rcases hi : env.initializeIO s.p.state.RootUID s.p.state.RootGID with _ | e <;>
    simp_all [pipeShape, mainStep, returnErr, launched, Add, go, loopNext, shimIOSet]
  case pairOpenW name src rest cl =>
    simp only [mainStep]
    rcases h3 with h3 | h3 <;> rcases hA : OpenFifo env name .O_WRONLY s with ⟨s1, _ | hd⟩ <;>
      obtain ⟨f1, f2, f3, f4, f5⟩ := OpenFifo_opens env _ _ _ _ _ hA <;>
      simp_all [pipeShape, mainStep, returnErr, launched, Add, go, loopNext, shimIOSet]

  case pairOpenR name src rest cl fw =>
    simp only [mainStep]
    rcases h3 with h3 | h3 <;> rcases hA : OpenFifo env name .O_RDONLY s with ⟨s1, _ | hd⟩ <;>
      obtain ⟨f1, f2, f3, f4, f5⟩ := OpenFifo_opens env _ _ _ _ _ hA <;>
      simp_all [pipeShape, mainStep, returnErr, launched, Add, go, loopNext, shimIOSet]

  case destAdd src rest cl fw fr =>
    rcases h3 with h3 | h3 <;>
    simp_all [pipeShape, mainStep, returnErr, launched, Add, go, loopNext, shimIOSet]
  case destGo src rest cl fw fr =>
    rcases h3 with h3 | h3 <;>
    simp_all [pipeShape, mainStep, returnErr, launched, Add, go, loopNext, shimIOSet]
  case pairAppend rest cl fw fr =>
    rcases h3 with h3 | h3 <;>
    simp_all [pipeShape, mainStep, returnErr, launched, Add, go, loopNext, shimIOSet]
  case openStdinR cl =>
    simp only [mainStep]
    rcases hA : OpenFifo env s.p.state.Stdin .O_RDONLY s with ⟨s1, _ | hd⟩ <;>
      obtain ⟨f1, f2, f3, f4, f5⟩ := OpenFifo_opens env _ _ _ _ _ hA <;>
      simp_all [pipeShape, mainStep, returnErr, launched, Add, go, loopNext, shimIOSet]

  case appendStdin cl f =>
    simp_all [pipeShape, mainStep, returnErr, launched, Add, go, loopNext, shimIOSet]
  case setCleanup cl f =>
    simp_all [pipeShape, mainStep, returnErr, launched, Add, go, loopNext, shimIOSet]
  case goStdin f =>
    simp_all [pipeShape, mainStep, returnErr, launched, Add, go, loopNext, shimIOSet]
  case returnNil =>
    simp_all [pipeShape, mainStep, returnErr, launched, Add, go, loopNext, shimIOSet]
  case returned =>
    simp_all [pipeShape, mainStep, returnErr, launched, Add, go, loopNext, shimIOSet]

theorem pipeShape_fstep (env : Env) (st : State) (hT : st.Terminal = false) (F : Fine)
    (e : FEvent) (h : pipeShape st F) : pipeShape st (fstep env F e) := by
  cases e with
  | main => exact pipeShape_mainStep env st hT F h
  | console =>
    obtain ⟨h1, h2, h3⟩ := h
    have : consoleStep env F = F := by
      obtain ⟨s, m, c⟩ := F
      simp only at h2
      subst h2
      simp [consoleStep]
    simpa [fstep, this] using ⟨h1, h2, h3⟩
  | copyEnds i r =>
    obtain ⟨h1, h2, h3⟩ := h
    obtain ⟨-, f2, -, f4, -, -, -, f8, -, f10⟩ := step_copyEnds_frame env F.sys i r
    refine ⟨by simpa [fstep, f8] using h1, h2, ?_⟩
    obtain ⟨s, m, c⟩ := F
    cases m <;> simp_all [fstep, launched]
  | waitBarrier =>
    obtain ⟨h1, h2, h3⟩ := h
    obtain ⟨f1, -, -, f4, f5, -, f7, -⟩ := step_wait_frame env F.sys Event.waitBarrier (Or.inl rfl)
    refine ⟨by simpa [fstep, f4] using h1, h2, ?_⟩
    obtain ⟨s, m, c⟩ := F
    cases m <;> simp_all [fstep, launched]
  | waitCleanup =>
    obtain ⟨h1, h2, h3⟩ := h
    obtain ⟨f1, -, -, f4, f5, -, f7, -⟩ := step_wait_frame env F.sys Event.waitCleanup (Or.inr rfl)
    refine ⟨by simpa [fstep, f4] using h1, h2, ?_⟩
    obtain ⟨s, m, c⟩ := F
    cases m <;> simp_all [fstep, launched]

theorem pipeShape_fexec (env : Env) (st : State) (hT : st.Terminal = false) (fs : List FEvent)
    (F : Fine) (h : pipeShape st F) : pipeShape st (fexec env fs F) := by
  induction fs generalizing F with
  | nil => exact h
  | cons e rest ih => exact ih _ (pipeShape_fstep env st hT F e h)
theorem set_running_false_of_ended (l : List Task) (i : Nat) (t : Task) (h : l[i]? = some t)
    (hr : t.running = false) : l.set i { t with running := false } = l := by
  induction l generalizing i with
  | nil => simp
  | cons a rest ih =>
    cases i with
    | zero =>
      simp only [List.getElem?_cons_zero, Option.some.injEq] at h
      subst h
      simp only [List.set_cons_zero]
      congr 1
      cases a; simp_all
    | succ j =>
      simp only [List.getElem?_cons_succ] at h
      simp [ih j h]

theorem step_copyEnds_effect (env : Env) (s : Sys) (i : Nat) (r : CopyEnd) :
    (step env s (Event.copyEnds i r)).dones =
      s.dones + (if registeredRunningAt s i = true then 1 else 0) ∧
    (step env s (Event.copyEnds i r)).p.wg =
      s.p.wg - (if registeredRunningAt s i = true then 1 else 0) ∧
    (step env s (Event.copyEnds i r)).tasks =
      (match s.tasks[i]? with
       | some t => s.tasks.set i { t with running := false }
       | none => s.tasks) := by
  rcases ht : s.tasks[i]? with _ | t
  · simp [step, enabled, taskRunning, registeredRunningAt, ht]
  · cases hr : t.running
    · have := set_running_false_of_ended s.tasks i t ht hr
      simp [step, enabled, taskRunning, registeredRunningAt, ht, hr, this]
    · cases hc : t.callsDone <;>
        simp [step, enabled, taskRunning, registeredRunningAt, ht, hr, hc, apply, copyEnds, Done]

theorem fexec_append (env : Env) (es fs : List FEvent) (F : Fine) :
    fexec env (es ++ fs) F = fexec env fs (fexec env es F) := by
  simp [fexec, List.foldl_append]

theorem pendingAdds_of_over (F : Fine) (hm : F.main = MainPC.returned)
    (hc : consoleRunning F = false) : pendingAdds F = 0 := by
  obtain ⟨s, m, c⟩ := F
  simp only at hm
  subst hm
  cases c <;> simp_all [pendingAdds, consoleRunning]

theorem Inv_of_over (F : Fine) (h : FineInv F) (hm : F.main = MainPC.returned)
    (hc : consoleRunning F = false) : Inv F.sys ∧ settled F.sys := by
  obtain ⟨h1, h2, -, h4, h5, h6⟩ := h
  have hp := pendingAdds_of_over F hm hc
  rw [hp] at h4 h6
  refine ⟨⟨by simpa using h4, h5, by simpa using h6⟩, ?_, ?_⟩
  · intro hn
    exact (h1.1 hn) hm
  · rw [h2, hc]

theorem fstep_of_over (env : Env) (F : Fine) (e : FEvent) (hm : F.main = MainPC.returned)
    (hc : consoleRunning F = false) (hs : settled F.sys) :
    fstep env F e = { F with sys := step env F.sys e.toEvent } := by
  obtain ⟨s, m, c⟩ := F
  simp only at hm hs
  subst hm
  obtain ⟨hr, hp⟩ := hs
  cases e with
  | main =>
    have : enabled s Event.openIO = false := by
      simp only [enabled]; cases hres : s.result <;> simp_all
    simp [fstep, mainStep, FEvent.toEvent, step, this]
  | console =>
    have : enabled s Event.consoleTask = false := by simp [enabled, hp]
    cases c <;> simp_all [fstep, consoleStep, FEvent.toEvent, step, consoleRunning]
  | copyEnds i r => rfl
  | waitBarrier => rfl
  | waitCleanup => rfl

theorem fexec_of_over (env : Env) (es : List FEvent) (F : Fine) (hm : F.main = MainPC.returned)
    (hc : consoleRunning F = false) (hs : settled F.sys) :
    fexec env es F = { F with sys := exec env (es.map FEvent.toEvent) F.sys } := by
  induction es generalizing F with
  | nil => rfl
  | cons e rest ih =>
    have h1 := fstep_of_over env F e hm hc hs
    have h2 := (step_of_settled env F.sys e.toEvent hs).1
    show fexec env rest (fstep env F e) = _
    rw [h1, ih { F with sys := step env F.sys e.toEvent } hm
      (by simpa [consoleRunning] using hc) h2]
    rfl

theorem registered_of_launched (s : Sys) (a b c : Handle × Handle × Bool)
    (h : launched s = [a, b, c]) :
    s.tasks.map Task.callsDone = [a.2.2, b.2.2, c.2.2] := by
  have : s.tasks.map Task.callsDone = (launched s).map (fun x => x.2.2) := by
    simp [launched, List.map_map, Function.comp_def]
  rw [this, h]; rfl

/-! ## The statements run in order are the atomic steps -/

theorem fine_sequential_eq_atomic (env : Env) (id runtime : String) (st : State) :
    (fexec env (List.replicate 18 FEvent.main ++ List.replicate 10 FEvent.console)
      (ffresh id runtime st)).sys =
      exec env [Event.openIO, Event.consoleTask] (fresh id runtime st) := by
  rcases h0 : env.OpenFifo 0 st.Stdin .O_WRONLY_NONBLOCK with _ | x
  swap
  · simp [fexec, List.replicate, fstep, mainStep, consoleStep, consoleEnd, returnErr, loopNext, exec,
      step, enabled, apply, process.openIO, consoleTask, OpenFifo, NewConsoleSocket, openPairs,
      dest, go, Add, shimIOSet, fresh, ffresh, h0]
  cases hT : st.Terminal
  swap
  · rcases hg : env.Getwd with x | cwd
    · simp [fexec, List.replicate, fstep, mainStep, consoleStep, consoleEnd, returnErr, loopNext,
        exec, step, enabled, apply, process.openIO, consoleTask, OpenFifo, NewConsoleSocket,
        openPairs, dest, go, Add, shimIOSet, fresh, ffresh, h0, hT, hg]
    rcases hs : env.NewConsoleSocket (env.Join cwd "pty.sock") with _ | x
    swap
    · simp [fexec, List.replicate, fstep, mainStep, consoleStep, consoleEnd, returnErr, loopNext,
        exec, step, enabled, apply, process.openIO, consoleTask, OpenFifo, NewConsoleSocket,
        openPairs, dest, go, Add, shimIOSet, fresh, ffresh, h0, hT, hg, hs]
    rcases hm : env.ReceiveMaster with _ | x
    swap
    · simp [fexec, List.replicate, fstep, mainStep, consoleStep, consoleEnd, returnErr, loopNext,
        exec, step, enabled, apply, process.openIO, consoleTask, OpenFifo, NewConsoleSocket,
        openPairs, dest, go, Add, shimIOSet, fresh, ffresh, h0, hT, hg, hs, hm]
    rcases h2 : env.OpenFifo 2 st.Stdin .O_RDONLY with _ | x <;>
    rcases h3 : env.OpenFifo 3 st.Stdout .O_WRONLY with _ | x <;>
    rcases h4 : env.OpenFifo 4 st.Stdout .O_RDONLY with _ | x <;>
    simp [fexec, List.replicate, fstep, mainStep, consoleStep, consoleEnd, returnErr, loopNext,
        exec, step, enabled, apply, process.openIO, consoleTask, OpenFifo, NewConsoleSocket,
        openPairs, dest, go, Add, shimIOSet, fresh, ffresh, h0, hT, hg, hs, hm, h2, h3, h4]
  rcases hi : env.initializeIO st.RootUID st.RootGID with _ | x
  swap
  · simp [fexec, List.replicate, fstep, mainStep, consoleStep, consoleEnd, returnErr, loopNext, exec,
      step, enabled, apply, process.openIO, consoleTask, OpenFifo, NewConsoleSocket, openPairs,
      dest, go, Add, shimIOSet, fresh, ffresh, h0, hT, hi]
  rcases h1 : env.OpenFifo 1 st.Stdout .O_WRONLY with _ | x
  swap
  · simp [fexec, List.replicate, fstep, mainStep, consoleStep, consoleEnd, returnErr, loopNext, exec,
      step, enabled, apply, process.openIO, consoleTask, OpenFifo, NewConsoleSocket, openPairs,
      dest, go, Add, shimIOSet, fresh, ffresh, h0, hT, hi, h1]
  rcases h2 : env.OpenFifo 2 st.Stdout .O_RDONLY with _ | x
  swap
  · simp [fexec, List.replicate, fstep, mainStep, consoleStep, consoleEnd, returnErr, loopNext, exec,
      step, enabled, apply, process.openIO, consoleTask, OpenFifo, NewConsoleSocket, openPairs,
      dest, go, Add, shimIOSet, fresh, ffresh, h0, hT, hi, h1, h2]
  rcases h3 : env.OpenFifo 3 st.Stderr .O_WRONLY with _ | x <;>
  rcases h4 : env.OpenFifo 4 st.Stderr .O_RDONLY with _ | x <;>
  rcases h5 : env.OpenFifo 5 st.Stdin .O_RDONLY with _ | x <;>
  simp [fexec, List.replicate, fstep, mainStep, consoleStep, consoleEnd, returnErr, loopNext, exec,
      step, enabled, apply, process.openIO, consoleTask, OpenFifo, NewConsoleSocket, openPairs,
      dest, go, Add, shimIOSet, fresh, ffresh, h0, hT, hi, h1, h2, h3, h4, h5]

/-! ## killAll: theorems -/

/-- C1: `killAll` runs the runtime binary if and only if `state.Exec` is false,
and then runs it exactly once, as `p.runtime` with the arguments
`state.RuntimeArgs` followed by `kill`, `--all`, the process id, `SIGKILL`. -/
theorem killAll_invokes_runtime_iff_init (env : Env) (p : process) :
    (( process.killAll env p).1 ≠ [] ↔ p.state.Exec = false) ∧
    ( process.killAll env p).1 =
      if p.state.Exec = false then
        [{ path := p.runtime,
           args := p.state.RuntimeArgs ++ ["kill", "--all", p.id, "SIGKILL"],
           pdeathsig := true }]
      else [] := by
  unfold process.killAll killCmd
  cases hE : p.state.Exec
  · simp only [Bool.not_false, if_true]
    split <;> simp
  · simp

/-- C2: `killAll` returns an error if and only if the process is an init process
and the runtime invocation fails, and the message is then the combined output,
`": "`, and the execution error; every exec process and every init process
whose invocation succeeds gets `nil`. -/
theorem killAll_error_iff_init_and_failed (env : Env) (p : process) :
    (( process.killAll env p).2 ≠ none ↔
      (p.state.Exec = false ∧ (env.CombinedOutput (killCmd p)).2 ≠ none)) ∧
    ( process.killAll env p).2 =
      if p.state.Exec = false then
        match env.CombinedOutput (killCmd p) with
        | (out, some err) => some (out ++ ": " ++ err)
        | (_, none) => none
      else none := by
  unfold process.killAll
  cases hE : p.state.Exec
  · simp only [Bool.not_false, if_true]
    rcases hc : env.CombinedOutput (killCmd p) with ⟨out, _ | err⟩ <;> simp
  · simp

/-! ## The completion tracker: theorems -/

/-- C9: in every execution, with the statements of the setup interleaved in
any way with relay tasks ending and with `Wait`, every `Add(1)` call comes
before the launch of the task it registers, every registered task decrements
the tracker exactly once, when its copy ends and whatever the outcome of the
copy, leaving the other tasks and both setup threads as they are; the `Done`
calls never outnumber the `Add(1)` calls and the counter is never negative. -/
theorem tracker_done_once_never_negative (env : Env) (id runtime : String) (st : State)
    (fs : List FEvent) (i : Nat) (r : CopyEnd) :
    (fexec env fs (ffresh id runtime st)).sys.adds =
      registered (fexec env fs (ffresh id runtime st)).sys +
        pendingAdds (fexec env fs (ffresh id runtime st)) ∧
    registered (fexec env fs (ffresh id runtime st)).sys ≤
      (fexec env fs (ffresh id runtime st)).sys.adds ∧
    (fexec env fs (ffresh id runtime st)).sys.dones =
      registeredEnded (fexec env fs (ffresh id runtime st)).sys ∧
    (fexec env fs (ffresh id runtime st)).sys.dones ≤
      (fexec env fs (ffresh id runtime st)).sys.adds ∧
    (fexec env fs (ffresh id runtime st)).sys.p.wg =
      ((fexec env fs (ffresh id runtime st)).sys.adds : Int) -
        (fexec env fs (ffresh id runtime st)).sys.dones ∧
    0 ≤ (fexec env fs (ffresh id runtime st)).sys.p.wg ∧
    (fstep env (fexec env fs (ffresh id runtime st)) (FEvent.copyEnds i r)).sys.dones =
      (fexec env fs (ffresh id runtime st)).sys.dones +
        (if registeredRunningAt (fexec env fs (ffresh id runtime st)).sys i = true then 1 else 0) ∧
    (fstep env (fexec env fs (ffresh id runtime st)) (FEvent.copyEnds i r)).sys.p.wg =
      (fexec env fs (ffresh id runtime st)).sys.p.wg -
        (if registeredRunningAt (fexec env fs (ffresh id runtime st)).sys i = true then 1 else 0) ∧
    (fstep env (fexec env fs (ffresh id runtime st)) (FEvent.copyEnds i r)).sys.adds =
      (fexec env fs (ffresh id runtime st)).sys.adds ∧
    (fstep env (fexec env fs (ffresh id runtime st)) (FEvent.copyEnds i r)).sys.tasks =
      (match (fexec env fs (ffresh id runtime st)).sys.tasks[i]? with
       | some t => (fexec env fs (ffresh id runtime st)).sys.tasks.set i { t with running := false }
       | none => (fexec env fs (ffresh id runtime st)).sys.tasks) ∧
    (fstep env (fexec env fs (ffresh id runtime st)) (FEvent.copyEnds i r)).main =
      (fexec env fs (ffresh id runtime st)).main ∧
    (fstep env (fexec env fs (ffresh id runtime st)) (FEvent.copyEnds i r)).console =
      (fexec env fs (ffresh id runtime st)).console := by
  have hI := FineInv_fexec env fs _ (FineInv_ffresh id runtime st)
  generalize fexec env fs (ffresh id runtime st) = F at hI ⊢
  obtain ⟨-, -, -, h4, h5, h6⟩ := hI
  have hsplit := registered_eq_running_add_ended F.sys
  obtain ⟨e1, e2, e3⟩ := step_copyEnds_effect env F.sys i r
  obtain ⟨e4, -⟩ := step_copyEnds_frame env F.sys i r
  refine ⟨h4, by omega, h5, by omega, ?_, ?_, e1, e2, e4, e3, rfl, rfl⟩
  · rw [h6, h4, h5, hsplit]; push_cast; ring
  · rw [h6]; exact Int.natCast_nonneg _

/-- Witness for `tracker_done_once_never_negative`: in pipe mode the stdout
relay, registered and launched by the seventh statement of `openIO`, ends
with a write error while `openIO` still has the stderr pair to open; the
tracker goes from 1 to 0 and `openIO` stays at its next statement. -/
theorem tracker_done_once_never_negative_witness :
    registeredRunningAt (fexec envOK (List.replicate 7 FEvent.main) (ffresh "c1" "runc" stPipe)).sys 0
      = true ∧
    (fexec envOK (List.replicate 7 FEvent.main) (ffresh "c1" "runc" stPipe)).main =
      MainPC.pairAppend [("err", Handle.shimStderr)] []
        (Handle.fifo 1 "out" .O_WRONLY) (Handle.fifo 2 "out" .O_RDONLY) ∧
    (fexec envOK (List.replicate 7 FEvent.main) (ffresh "c1" "runc" stPipe)).sys.p.wg = 1 ∧
    (fstep envOK (fexec envOK (List.replicate 7 FEvent.main) (ffresh "c1" "runc" stPipe))
        (FEvent.copyEnds 0 (CopyEnd.error "broken pipe"))).sys.p.wg =
      (fexec envOK (List.replicate 7 FEvent.main) (ffresh "c1" "runc" stPipe)).sys.p.wg -
        (if registeredRunningAt
            (fexec envOK (List.replicate 7 FEvent.main) (ffresh "c1" "runc" stPipe)).sys 0 = true
          then 1 else 0) :=
  ⟨by decide, by decide, by decide,
   (tracker_done_once_never_negative envOK "c1" "runc" stPipe (List.replicate 7 FEvent.main) 0
      (CopyEnd.error "broken pipe")).2.2.2.2.2.2.2.1⟩

/-! ## Setup failures -/

/-- C10: when `openIO` on a fresh process returns an error, that run has
registered no cleanup closure, and whatever happens afterwards (relay tasks
ending, `Wait` calls) no handle is ever closed; a `Wait` made once the
registered relays have ended returns and closes nothing. -/
theorem failed_openIO_registers_no_cleanup (env : Env) (id runtime : String) (st : State)
    (es : List Event) (herr : ( process.openIO env (fresh id runtime st)).2 ≠ none) :
    ( process.openIO env (fresh id runtime st)).1.p.ioCleanupFn = none ∧
    (exec env (Event.openIO :: es) (fresh id runtime st)).p.ioCleanupFn = none ∧
    (exec env (Event.openIO :: es) (fresh id runtime st)).closes = [] ∧
    (registeredRunning (exec env (Event.openIO :: es) (fresh id runtime st)) = 0 →
      ∃ s1, process.Wait (exec env (Event.openIO :: es) (fresh id runtime st)) = some s1 ∧
        s1.closes = []) := by
  have hbase : ( process.openIO env (fresh id runtime st)).1.p.ioCleanupFn = none ∧
      ( process.openIO env (fresh id runtime st)).1.closes = [] ∧
      ( process.openIO env (fresh id runtime st)).1.consolePending = false := by
    rcases openIO_fresh_cases env id runtime st with
      ⟨e, -, h⟩ | ⟨e, -, -, -, h⟩ | ⟨cwd, e, -, -, -, -, h⟩ | ⟨cwd, -, -, -, -, h⟩ |
      ⟨e, -, -, -, h⟩ | ⟨e, -, -, -, -, h⟩ | ⟨e, -, -, -, -, -, h⟩ | ⟨e, -, -, -, -, -, -, h⟩ |
      ⟨e, -, -, -, -, -, -, -, h⟩ | ⟨e, -, -, -, -, -, -, -, -, h⟩ | ⟨-, -, -, -, -, -, -, -, h⟩ <;>
    (rw [h] at herr ⊢; simp [fresh] at herr ⊢)
  obtain ⟨hc, hcl, hp⟩ := hbase
  have hI : Inv (exec env (Event.openIO :: es) (fresh id runtime st)) :=
    Inv_exec env _ _ (Inv_fresh id runtime st)
  rw [exec_openIO_fresh] at hI ⊢
  have hset : settled { ( process.openIO env (fresh id runtime st)).1 with
      result := some ( process.openIO env (fresh id runtime st)).2 } := ⟨by simp, hp⟩
  obtain ⟨k1, k2⟩ := exec_closes_of_no_cleanup env es _ hset hc
  have k3 := k1.trans hcl
  refine ⟨hc, k2, k3, ?_⟩
  intro hz
  have hw := hI.2.2
  rw [hz] at hw
  obtain ⟨s1, e1, e2⟩ := Wait_of_no_cleanup _ (by exact_mod_cast hw) k2
  exact ⟨s1, e1, e2.trans k3⟩

/-- Witness for `failed_openIO_registers_no_cleanup`: the stderr write open times
out after the stdout relay has been started; the relay ends, `Wait` runs. -/
theorem failed_openIO_registers_no_cleanup_witness :
    ( process.openIO (envFailAt 3) (fresh "c1" "runc" stPipe)).2 ≠ none ∧
    (exec (envFailAt 3) [Event.openIO, Event.copyEnds 0 CopyEnd.eof, Event.waitBarrier,
      Event.waitCleanup] (fresh "c1" "runc" stPipe)).closes = [] :=
  ⟨by decide,
   (failed_openIO_registers_no_cleanup (envFailAt 3) "c1" "runc" stPipe
      [Event.copyEnds 0 CopyEnd.eof, Event.waitBarrier, Event.waitCleanup] (by decide)).2.2.1⟩
/-- C6 (as the code has it): when `openIO` on a fresh process returns an
error, the relay tasks it has launched are the output relays of the
stdout/stderr pairs whose two opens both succeeded before the failing step
(none, stdout only, or stdout and stderr), every one of them registered, so
the tracker is raised by that number; the stdin relay is not launched; a
failure in terminal mode, or no later than the opens of the stdout pair,
launches nothing and leaves the tracker as it was. -/
theorem failed_openIO_launched_relays (env : Env) (id runtime : String) (st : State)
    (herr : ( process.openIO env (fresh id runtime st)).2 ≠ none) :
    ( process.openIO env (fresh id runtime st)).1.tasks =
      (if st.Terminal = false ∧ env.OpenFifo 0 st.Stdin .O_WRONLY_NONBLOCK = none ∧
          env.initializeIO st.RootUID st.RootGID = none ∧
          env.OpenFifo 1 st.Stdout .O_WRONLY = none ∧ env.OpenFifo 2 st.Stdout .O_RDONLY = none then
        { dst := Handle.fifo 1 st.Stdout .O_WRONLY, src := Handle.shimStdout,
          callsDone := true, running := true } ::
        (if env.OpenFifo 3 st.Stderr .O_WRONLY = none ∧ env.OpenFifo 4 st.Stderr .O_RDONLY = none then
          [{ dst := Handle.fifo 3 st.Stderr .O_WRONLY, src := Handle.shimStderr,
             callsDone := true, running := true }]
        else [])
      else []) ∧
    ( process.openIO env (fresh id runtime st)).1.p.wg =
      (( process.openIO env (fresh id runtime st)).1.tasks.length : Int) ∧
    ( process.openIO env (fresh id runtime st)).1.adds =
      ( process.openIO env (fresh id runtime st)).1.tasks.length ∧
    ( process.openIO env (fresh id runtime st)).1.dones = 0 := by
  rcases openIO_fresh_cases env id runtime st with
    ⟨e, h0, h⟩ | ⟨e, h0, hT, hg, h⟩ | ⟨cwd, e, h0, hT, hg, hs, h⟩ | ⟨cwd, h0, hT, hg, hs, h⟩ |
    ⟨e, h0, hT, hi, h⟩ | ⟨e, h0, hT, hi, h1, h⟩ | ⟨e, h0, hT, hi, h1, h2, h⟩ |
    ⟨e, h0, hT, hi, h1, h2, h3, h⟩ | ⟨e, h0, hT, hi, h1, h2, h3, h4, h⟩ |
    ⟨e, h0, hT, hi, h1, h2, h3, h4, h5, h⟩ | ⟨h0, hT, hi, h1, h2, h3, h4, h5, h⟩ <;>
  (rw [h] at herr ⊢; simp [fresh, *] at herr ⊢)

/-- Witness for `failed_openIO_launched_relays`: the stderr write open times out. -/
theorem failed_openIO_launched_relays_witness :
    ( process.openIO (envFailAt 3) (fresh "c1" "runc" stPipe)).2 ≠ none ∧
    ( process.openIO (envFailAt 3) (fresh "c1" "runc" stPipe)).1.dones = 0 :=
  ⟨by decide, (failed_openIO_launched_relays (envFailAt 3) "c1" "runc" stPipe (by decide)).2.2.2⟩

/-- C6, counterexample: the stdout pair opens, its relay is registered and
launched, then the stderr write open times out: `openIO` returns an error
although one relay is running and the tracker has gone from 0 to 1. -/
theorem failed_openIO_has_launched_a_relay :
    (exec (envFailAt 3) [Event.openIO] (fresh "c1" "runc" stPipe)).result =
      some (some (openFailed "err" "context deadline exceeded")) ∧
    (exec (envFailAt 3) [Event.openIO] (fresh "c1" "runc" stPipe)).tasks =
      [{ dst := Handle.fifo 1 "out" .O_WRONLY, src := Handle.shimStdout,
         callsDone := true, running := true }] ∧
    (fresh "c1" "runc" stPipe).p.wg = 0 ∧
    (exec (envFailAt 3) [Event.openIO] (fresh "c1" "runc" stPipe)).p.wg = 1 := by
  decide

/-! ## Successful setup -/

/-- C3 (as the code has it): in every execution in which a non-terminal
`openIO` returns `nil`, three relay tasks have been launched, stdout pipe
from the shim's stdout, stderr pipe from the shim's stderr, shim's stdin from
the stdin pipe; the first two are registered with the tracker, each by an
`Add(1)` made before the task is started, and the stdin relay is not:
`Add(1)` has been called twice, and the barrier of `Wait` is open exactly
when the stdout and the stderr relay have both ended, whether or not the
stdin relay is still copying. -/
theorem pipe_setup_registers_output_relays (env : Env) (id runtime : String) (st : State)
    (fs : List FEvent) (hT : st.Terminal = false)
    (hret : (fexec env fs (ffresh id runtime st)).main = MainPC.returned)
    (hok : (fexec env fs (ffresh id runtime st)).sys.result = some none) :
    launched (fexec env fs (ffresh id runtime st)).sys =
      [(Handle.fifo 1 st.Stdout .O_WRONLY, Handle.shimStdout, true),
       (Handle.fifo 3 st.Stderr .O_WRONLY, Handle.shimStderr, true),
       (Handle.shimStdin, Handle.fifo 5 st.Stdin .O_RDONLY, false)] ∧
    (fexec env fs (ffresh id runtime st)).sys.adds = 2 ∧
    (fexec env fs (ffresh id runtime st)).sys.p.wg =
      2 - ((fexec env fs (ffresh id runtime st)).sys.dones : Int) ∧
    (enabled (fexec env fs (ffresh id runtime st)).sys Event.waitBarrier = true ↔
      taskRunning (fexec env fs (ffresh id runtime st)).sys 0 = false ∧
      taskRunning (fexec env fs (ffresh id runtime st)).sys 1 = false) ∧
    (∀ n, registered (fexec env (fs.take n) (ffresh id runtime st)).sys ≤
        (fexec env (fs.take n) (ffresh id runtime st)).sys.adds ∧
      ∀ src rest ioClosers fw fr,
        (fexec env (fs.take n) (ffresh id runtime st)).main =
          MainPC.destGo src rest ioClosers fw fr →
        (fexec env (fs.take n) (ffresh id runtime st)).sys.adds =
          registered (fexec env (fs.take n) (ffresh id runtime st)).sys + 1) := by
  have hI := FineInv_fexec env fs _ (FineInv_ffresh id runtime st)
  have hQ := pipeShape_fexec env st hT fs _ (pipeShape_ffresh id runtime st)
  have hord : ∀ n, registered (fexec env (fs.take n) (ffresh id runtime st)).sys ≤
        (fexec env (fs.take n) (ffresh id runtime st)).sys.adds ∧
      ∀ src rest ioClosers fw fr,
        (fexec env (fs.take n) (ffresh id runtime st)).main =
          MainPC.destGo src rest ioClosers fw fr →
        (fexec env (fs.take n) (ffresh id runtime st)).sys.adds =
          registered (fexec env (fs.take n) (ffresh id runtime st)).sys + 1 := by
    intro n
    have hJ := FineInv_fexec env (fs.take n) _ (FineInv_ffresh id runtime st)
    generalize fexec env (fs.take n) (ffresh id runtime st) = G at hJ ⊢
    obtain ⟨-, -, j3, j4, -, -⟩ := hJ
    refine ⟨by omega, ?_⟩
    intro src rest cl fw fr hm
    have hc : G.console = ConsPC.notStarted := by
      by_contra hne
      rcases j3 hne with h | h <;> rw [hm] at h <;> simp at h
    rw [j4]
    simp [pendingAdds, hm, hc]
  generalize fexec env fs (ffresh id runtime st) = F at hI hQ hret hok hord ⊢
  obtain ⟨q1, q2, q3⟩ := hQ
  have hc : consoleRunning F = false := by simp [consoleRunning, q2]
  obtain ⟨hInv, -⟩ := Inv_of_over F hI hret hc
  have hl : launched F.sys =
      [(Handle.fifo 1 st.Stdout .O_WRONLY, Handle.shimStdout, true),
       (Handle.fifo 3 st.Stderr .O_WRONLY, Handle.shimStderr, true),
       (Handle.shimStdin, Handle.fifo 5 st.Stdin .O_RDONLY, false)] := by
    rw [hret] at q3
    exact q3 hok
  have hflags := registered_of_launched F.sys _ _ _ hl
  simp only at hflags
  have hreg : registered F.sys = 2 := by
    have : registered F.sys = (F.sys.tasks.map Task.callsDone).count true := by
      simp [registered, List.count, List.countP_map, Function.comp_def]
    rw [this, hflags]; rfl
  obtain ⟨ha, hd, hw⟩ := hInv
  have hsplit := registered_eq_running_add_ended F.sys
  refine ⟨hl, by omega, ?_, barrier_iff_of_flags F.sys ⟨ha, hd, hw⟩ hflags, hord⟩
  rw [hw, hd]
  have : registeredRunning F.sys = 2 - registeredEnded F.sys := by omega
  have h2 : registeredEnded F.sys ≤ 2 := by omega
  omega

/-- Witness for `pipe_setup_registers_output_relays`: every open succeeds, and
the stdout relay ends while `openIO` still has the stderr pair to open. -/
theorem pipe_setup_registers_output_relays_witness :
    stPipe.Terminal = false ∧
    (fexec envOK (List.replicate 7 FEvent.main ++ [FEvent.copyEnds 0 CopyEnd.eof] ++
        List.replicate 11 FEvent.main) (ffresh "c1" "runc" stPipe)).main = MainPC.returned ∧
    (fexec envOK (List.replicate 7 FEvent.main ++ [FEvent.copyEnds 0 CopyEnd.eof] ++
        List.replicate 11 FEvent.main) (ffresh "c1" "runc" stPipe)).sys.result = some none ∧
    (fexec envOK (List.replicate 7 FEvent.main ++ [FEvent.copyEnds 0 CopyEnd.eof] ++
        List.replicate 11 FEvent.main) (ffresh "c1" "runc" stPipe)).sys.adds = 2 :=
  ⟨rfl, by decide, by decide,
   (pipe_setup_registers_output_relays envOK "c1" "runc" stPipe
      (List.replicate 7 FEvent.main ++ [FEvent.copyEnds 0 CopyEnd.eof] ++
        List.replicate 11 FEvent.main) rfl (by decide) (by decide)).2.1⟩

/-- C3, counterexample: after a successful non-terminal `openIO` on a fresh
process three relays run but the tracker stands at 2, not 3: the stdin relay
never registered.  Once the stdout and stderr relays have ended the barrier of
`Wait` is open although the stdin relay is still copying. -/
theorem pipe_setup_tracker_is_two_not_three :
    (exec envOK [Event.openIO] (fresh "c1" "runc" stPipe)).result = some none ∧
    (exec envOK [Event.openIO] (fresh "c1" "runc" stPipe)).tasks.length = 3 ∧
    (fresh "c1" "runc" stPipe).p.wg = 0 ∧
    (exec envOK [Event.openIO] (fresh "c1" "runc" stPipe)).p.wg = 2 ∧
    (exec envOK [Event.openIO] (fresh "c1" "runc" stPipe)).p.wg ≠ 3 ∧
    (exec envOK [Event.openIO] (fresh "c1" "runc" stPipe)).adds = 2 ∧
    enabled (exec envOK [Event.openIO, Event.copyEnds 0 CopyEnd.eof, Event.copyEnds 1 CopyEnd.eof]
      (fresh "c1" "runc" stPipe)) Event.waitBarrier = true ∧
    taskRunning (exec envOK [Event.openIO, Event.copyEnds 0 CopyEnd.eof, Event.copyEnds 1 CopyEnd.eof]
      (fresh "c1" "runc" stPipe)) 2 = true := by
  decide

/-- C8: in terminal mode, when `openIO` succeeds and the console goroutine
receives the master and opens its three pipe ends, exactly two relay tasks
are launched, stdin pipe into the master and master into the stdout pipe;
`Add(1)` is called once, for the output relay, and the input relay is not
registered: from then on the barrier of `Wait` opens exactly when the output
relay has ended, whatever the input relay does. -/
theorem tty_setup_two_relays_output_registered (env : Env) (id runtime : String) (st : State)
    (es : List Event) (hT : st.Terminal = true)
    (hok : ( process.openIO env (fresh id runtime st)).2 = none)
    (hm : env.ReceiveMaster = none) (h2 : env.OpenFifo 2 st.Stdin .O_RDONLY = none)
    (h3 : env.OpenFifo 3 st.Stdout .O_WRONLY = none) (h4 : env.OpenFifo 4 st.Stdout .O_RDONLY = none) :
    (exec env [Event.openIO, Event.consoleTask] (fresh id runtime st)).tasks =
      [{ dst := Handle.ptyMaster, src := Handle.fifo 2 st.Stdin .O_RDONLY,
         callsDone := false, running := true },
       { dst := Handle.fifo 3 st.Stdout .O_WRONLY, src := Handle.ptyMaster,
         callsDone := true, running := true }] ∧
    (exec env [Event.openIO, Event.consoleTask] (fresh id runtime st)).adds = 1 ∧
    (exec env [Event.openIO, Event.consoleTask] (fresh id runtime st)).p.wg = 1 ∧
    (exec env [Event.openIO] (fresh id runtime st)).tasks = [] ∧
    (exec env [Event.openIO] (fresh id runtime st)).adds = 0 ∧
    (enabled (exec env (Event.openIO :: Event.consoleTask :: es) (fresh id runtime st))
        Event.waitBarrier = true ↔
      taskRunning (exec env (Event.openIO :: Event.consoleTask :: es) (fresh id runtime st)) 1
        = false) := by
  obtain ⟨cwd, h0, hg, hs⟩ := tty_openIO_ok env id runtime st hT hok
  have hst := tty_setup_state env id runtime st cwd h0 hT hg hs hm h2 h3 h4
  have hI : Inv (exec env [Event.openIO, Event.consoleTask] (fresh id runtime st)) :=
    Inv_exec env _ _ (Inv_fresh id runtime st)
  have hsplit : exec env (Event.openIO :: Event.consoleTask :: es) (fresh id runtime st) =
      exec env es (exec env [Event.openIO, Event.consoleTask] (fresh id runtime st)) :=
    exec_append env [Event.openIO, Event.consoleTask] es _
  rw [hsplit]
  have hfacts : settled (exec env [Event.openIO, Event.consoleTask] (fresh id runtime st)) ∧
      (exec env [Event.openIO, Event.consoleTask] (fresh id runtime st)).tasks.map Task.callsDone
        = [false, true] ∧
      (exec env [Event.openIO, Event.consoleTask] (fresh id runtime st)).waiting = 0 := by
    rw [hst]; simp [settled, fresh]
  obtain ⟨hset, hflags, hwait⟩ := hfacts
  obtain ⟨k0, -, -, -, k4, -⟩ :=
    exec_of_settled env es _ hI hset (pastBarrierZero_of_waiting _ hwait)
  refine ⟨by rw [hst], by rw [hst], by rw [hst], ?_, ?_, barrier_iff_of_tty_flags _ k0 (k4.trans hflags)⟩
  · simp [exec, step, enabled, apply, process.openIO, OpenFifo, NewConsoleSocket, fresh, h0, hT, hg, hs]
  · simp [exec, step, enabled, apply, process.openIO, OpenFifo, NewConsoleSocket, fresh, h0, hT, hg, hs]

/-- Witness for `tty_setup_two_relays_output_registered`: every call succeeds,
then the input relay ends. -/
theorem tty_setup_two_relays_output_registered_witness :
    stTty.Terminal = true ∧ ( process.openIO envOK (fresh "c1" "runc" stTty)).2 = none ∧
    (exec envOK [Event.openIO, Event.consoleTask] (fresh "c1" "runc" stTty)).adds = 1 :=
  ⟨rfl, by decide,
   (tty_setup_two_relays_output_registered envOK "c1" "runc" stTty [Event.copyEnds 0 CopyEnd.eof]
      rfl (by decide) rfl rfl rfl rfl).2.1⟩

/-- C5 (as the code has it): after a successful setup the closure that `Wait`
runs closes the handles it captured, and only those.  In pipe mode these are
the write and read handles of the stdout pipe and of the stderr pipe, the
shim-side stdin handle and the stdin read handle; in terminal mode they
include the console master and the write and read handles of the stdout
pipe.  In neither mode does the closure close the first, non-blocking stdin
write handle (kept in `p.stdinCloser`) or the console socket (kept in
`p.socket`), although both were opened during setup. -/
theorem cleanup_closes_captured_handles (env : Env) (id runtime : String) (st : State)
    (es : List Event)
    (hok : ( process.openIO env (fresh id runtime st)).2 = none)
    (hcons : st.Terminal = true → env.ReceiveMaster = none ∧
      env.OpenFifo 2 st.Stdin .O_RDONLY = none ∧ env.OpenFifo 3 st.Stdout .O_WRONLY = none ∧
      env.OpenFifo 4 st.Stdout .O_RDONLY = none) :
    ∃ cl, (exec env [Event.openIO, Event.consoleTask] (fresh id runtime st)).p.ioCleanupFn = some cl ∧
      (st.Terminal = false →
        cl = [Handle.fifo 1 st.Stdout .O_WRONLY, Handle.fifo 2 st.Stdout .O_RDONLY,
              Handle.fifo 3 st.Stderr .O_WRONLY, Handle.fifo 4 st.Stderr .O_RDONLY,
              Handle.shimStdin, Handle.fifo 5 st.Stdin .O_RDONLY]) ∧
      (st.Terminal = true →
        Handle.ptyMaster ∈ cl ∧ Handle.fifo 3 st.Stdout .O_WRONLY ∈ cl ∧
        Handle.fifo 4 st.Stdout .O_RDONLY ∈ cl) ∧
      (∀ h ∈ cl, h ∈ (exec env [Event.openIO, Event.consoleTask] (fresh id runtime st)).opened) ∧
      (exec env [Event.openIO, Event.consoleTask] (fresh id runtime st)).p.stdinCloser =
        some (Handle.fifo 0 st.Stdin .O_WRONLY_NONBLOCK) ∧
      Handle.fifo 0 st.Stdin .O_WRONLY_NONBLOCK ∈
        (exec env [Event.openIO, Event.consoleTask] (fresh id runtime st)).opened ∧
      Handle.fifo 0 st.Stdin .O_WRONLY_NONBLOCK ∉ cl ∧
      (∀ h, (exec env [Event.openIO, Event.consoleTask] (fresh id runtime st)).p.socket = some h →
        h ∈ (exec env [Event.openIO, Event.consoleTask] (fresh id runtime st)).opened ∧ h ∉ cl) ∧
      (exec env (Event.openIO :: Event.consoleTask :: es) (fresh id runtime st)).p.ioCleanupFn
        = some cl ∧
      (enabled (exec env (Event.openIO :: Event.consoleTask :: es) (fresh id runtime st))
          Event.waitCleanup = true →
        (step env (exec env (Event.openIO :: Event.consoleTask :: es) (fresh id runtime st))
            Event.waitCleanup).closes =
          (exec env (Event.openIO :: Event.consoleTask :: es) (fresh id runtime st)).closes ++ cl) := by
  have hI : Inv (exec env [Event.openIO, Event.consoleTask] (fresh id runtime st)) :=
    Inv_exec env _ _ (Inv_fresh id runtime st)
  have hsplit : exec env (Event.openIO :: Event.consoleTask :: es) (fresh id runtime st) =
      exec env es (exec env [Event.openIO, Event.consoleTask] (fresh id runtime st)) :=
    exec_append env [Event.openIO, Event.consoleTask] es _
  rw [hsplit]
  have hlater : ∀ cl, settled (exec env [Event.openIO, Event.consoleTask] (fresh id runtime st)) →
      (exec env [Event.openIO, Event.consoleTask] (fresh id runtime st)).waiting = 0 →
      (exec env [Event.openIO, Event.consoleTask] (fresh id runtime st)).p.ioCleanupFn = some cl →
      (exec env es (exec env [Event.openIO, Event.consoleTask] (fresh id runtime st))).p.ioCleanupFn
        = some cl ∧
      (enabled (exec env es (exec env [Event.openIO, Event.consoleTask] (fresh id runtime st)))
          Event.waitCleanup = true →
        (step env (exec env es (exec env [Event.openIO, Event.consoleTask] (fresh id runtime st)))
            Event.waitCleanup).closes =
          (exec env es (exec env [Event.openIO, Event.consoleTask] (fresh id runtime st))).closes
            ++ cl) := by
    intro cl hset hwait hcl
    obtain ⟨-, k1, -, k3, -⟩ := exec_of_settled env es _ hI hset (pastBarrierZero_of_waiting _ hwait)
    refine ⟨k3.trans hcl, ?_⟩
    intro hen
    simp only [enabled, decide_eq_true_eq] at hen
    obtain ⟨-, -, -, -, -, -, -, h8⟩ := step_of_settled env _ Event.waitCleanup k1
    rw [h8, k3, hcl]
    simp [hen]
  cases hT : st.Terminal
  · obtain ⟨h0, hi, h1, h2, h3, h4, h5⟩ := pipe_openIO_ok env id runtime st hT hok
    have hst := pipe_setup_state env id runtime st hT h0 hi h1 h2 h3 h4 h5
    have hl := hlater [Handle.fifo 1 st.Stdout .O_WRONLY, Handle.fifo 2 st.Stdout .O_RDONLY,
              Handle.fifo 3 st.Stderr .O_WRONLY, Handle.fifo 4 st.Stderr .O_RDONLY,
              Handle.shimStdin, Handle.fifo 5 st.Stdin .O_RDONLY]
      (by rw [hst]; simp [settled, fresh]) (by rw [hst]; simp [fresh]) (by rw [hst])
    refine ⟨_, by rw [hst], fun _ => rfl, by simp, ?_, ?_, ?_, by simp, ?_, hl.1, hl.2⟩
    · rw [hst]; simp
    · rw [hst]
    · rw [hst]; simp
    · rw [hst]; simp [fresh]
  · obtain ⟨hm, h2, h3, h4⟩ := hcons hT
    obtain ⟨cwd, h0, hg, hs⟩ := tty_openIO_ok env id runtime st hT hok
    have hst := tty_setup_state env id runtime st cwd h0 hT hg hs hm h2 h3 h4
    have hl := hlater [Handle.ptyMaster, Handle.fifo 4 st.Stdout .O_RDONLY,
                 Handle.fifo 3 st.Stdout .O_WRONLY]
      (by rw [hst]; simp [settled, fresh]) (by rw [hst]; simp [fresh]) (by rw [hst])
    refine ⟨_, by rw [hst], by simp, by simp, ?_, ?_, ?_, by simp, ?_, hl.1, hl.2⟩
    · rw [hst]; simp
    · rw [hst]
    · rw [hst]; simp
    · rw [hst]; simp

/-- Witness for `cleanup_closes_captured_handles`: terminal mode, every call
succeeds, the output relay ends and a `Wait` passes its barrier. -/
theorem cleanup_closes_captured_handles_witness :
    ( process.openIO envOK (fresh "c1" "runc" stTty)).2 = none ∧
    ∃ cl, (exec envOK [Event.openIO, Event.consoleTask] (fresh "c1" "runc" stTty)).p.ioCleanupFn
        = some cl ∧
      Handle.fifo 0 "in" .O_WRONLY_NONBLOCK ∉ cl :=
  ⟨by decide,
   let ⟨cl, h1, _, _, _, _, _, h7, _⟩ :=
     cleanup_closes_captured_handles envOK "c1" "runc" stTty
       [Event.copyEnds 1 CopyEnd.eof, Event.waitBarrier] (by decide)
       (fun _ => ⟨rfl, rfl, rfl, rfl⟩)
   ⟨cl, h1, h7⟩⟩

/-- C5, counterexample: after a complete successful run and a `Wait`, in pipe
mode the first non-blocking stdin write handle was opened and is not closed;
in terminal mode neither that handle, nor the console socket, nor the stdin
read handle of the console goroutine is closed. -/
theorem cleanup_leaves_setup_handles_open :
    Handle.fifo 0 "in" .O_WRONLY_NONBLOCK ∈
      (exec envOK [Event.openIO, Event.copyEnds 0 CopyEnd.eof, Event.copyEnds 1 CopyEnd.eof,
        Event.copyEnds 2 CopyEnd.eof, Event.waitBarrier, Event.waitCleanup]
        (fresh "c1" "runc" stPipe)).opened ∧
    Handle.fifo 0 "in" .O_WRONLY_NONBLOCK ∉
      (exec envOK [Event.openIO, Event.copyEnds 0 CopyEnd.eof, Event.copyEnds 1 CopyEnd.eof,
        Event.copyEnds 2 CopyEnd.eof, Event.waitBarrier, Event.waitCleanup]
        (fresh "c1" "runc" stPipe)).closes ∧
    (exec envOK [Event.openIO, Event.consoleTask, Event.copyEnds 0 CopyEnd.eof,
        Event.copyEnds 1 CopyEnd.eof, Event.waitBarrier, Event.waitCleanup]
        (fresh "c1" "runc" stTty)).opened =
      [Handle.fifo 0 "in" .O_WRONLY_NONBLOCK, Handle.socket "/work/pty.sock", Handle.ptyMaster,
       Handle.fifo 2 "in" .O_RDONLY, Handle.fifo 3 "out" .O_WRONLY, Handle.fifo 4 "out" .O_RDONLY] ∧
    (exec envOK [Event.openIO, Event.consoleTask, Event.copyEnds 0 CopyEnd.eof,
        Event.copyEnds 1 CopyEnd.eof, Event.waitBarrier, Event.waitCleanup]
        (fresh "c1" "runc" stTty)).closes =
      [Handle.ptyMaster, Handle.fifo 4 "out" .O_RDONLY, Handle.fifo 3 "out" .O_WRONLY] := by
  decide

/-- C7 (as the code has it): an open attempt of the setup that fails is the
last open the setup attempts.  When the failing open is one `openIO` makes
itself (the first stdin open, the console socket, the pipe opens of pipe
mode), `openIO` returns an error carrying the error of that open, as it is or
wrapped in "containerd-shim: opening <path> failed: ...".  When it is one of
the opens of the console goroutine in terminal mode, `openIO` has already
returned `nil` and the error is dropped. -/
theorem first_failing_open_ends_setup (env : Env) (id runtime : String) (st : State)
    (k : Nat) (call : OpenCall) (e : String)
    (hk : (exec env [Event.openIO, Event.consoleTask] (fresh id runtime st)).opens[k]? = some call)
    (he : callError env k call = some e) :
    k + 1 = (exec env [Event.openIO, Event.consoleTask] (fresh id runtime st)).opens.length ∧
    (k < ( process.openIO env (fresh id runtime st)).1.opens.length →
      ( process.openIO env (fresh id runtime st)).2 = some e ∨
      ( process.openIO env (fresh id runtime st)).2 = some (openFailed call.path e)) ∧
    (( process.openIO env (fresh id runtime st)).1.opens.length ≤ k →
      st.Terminal = true ∧ ( process.openIO env (fresh id runtime st)).2 = none) := by
  rcases openIO_fresh_cases env id runtime st with
    ⟨e1, h0, h⟩ | ⟨e1, h0, hT1, hg, h⟩ | ⟨cwd, e1, h0, hT1, hg, hs, h⟩ | ⟨cwd, h0, hT1, hg, hs, h⟩ |
    ⟨e1, h0, hT1, hi, h⟩ | ⟨e1, h0, hT1, hi, h1, h⟩ | ⟨e1, h0, hT1, hi, h1, h2, h⟩ |
    ⟨e1, h0, hT1, hi, h1, h2, h3, h⟩ | ⟨e1, h0, hT1, hi, h1, h2, h3, h4, h⟩ |
    ⟨e1, h0, hT1, hi, h1, h2, h3, h4, h5, h⟩ | ⟨h0, hT1, hi, h1, h2, h3, h4, h5, h⟩
  case inr.inr.inr.inl =>
    rw [exec_setup_pending env id runtime st (by rw [h])] at hk ⊢
    rcases consoleTask_cases env { ( process.openIO env (fresh id runtime st)).1 with
        result := some ( process.openIO env (fresh id runtime st)).2 } with
      ⟨e1, hm, hc⟩ | ⟨e1, hm, h2, hc⟩ | ⟨e1, hm, h2, h3, hc⟩ | ⟨e1, hm, h2, h3, h4, hc⟩ |
      ⟨hm, h2, h3, h4, hc⟩
    all_goals
      rw [hc] at hk ⊢
      rw [h] at hk ⊢
    all_goals try rw [h] at h2
    all_goals try rw [h] at h3
    all_goals try rw [h] at h4
    all_goals
      simp only [fresh] at *
      rcases k with _ | _ | _ | _ | _ | _ | k <;> simp at hk <;> subst hk <;>
        simp_all [callError, OpenCall.path]
  all_goals
    rw [exec_setup_not_pending env id runtime st (by rw [h]; rfl)] at hk ⊢
    rw [h] at hk ⊢
    simp only [fresh] at hk ⊢
    rcases k with _ | _ | _ | _ | _ | _ | k <;> simp at hk <;> subst hk <;>
      simp_all [callError, OpenCall.path]

/-- Witness for `first_failing_open_ends_setup`: in pipe mode the stderr write
open, the fourth attempt, times out. -/
theorem first_failing_open_ends_setup_witness :
    (exec (envFailAt 3) [Event.openIO, Event.consoleTask] (fresh "c1" "runc" stPipe)).opens[3]? =
      some (OpenCall.fifo "err" .O_WRONLY) ∧
    callError (envFailAt 3) 3 (OpenCall.fifo "err" .O_WRONLY) = some "context deadline exceeded" ∧
    3 + 1 = (exec (envFailAt 3) [Event.openIO, Event.consoleTask] (fresh "c1" "runc" stPipe)).opens.length :=
  ⟨by decide, by decide,
   (first_failing_open_ends_setup (envFailAt 3) "c1" "runc" stPipe 3 (OpenCall.fifo "err" .O_WRONLY)
      "context deadline exceeded" (by decide) (by decide)).1⟩

/-- C7, counterexample: in terminal mode the stdin read open of the console
goroutine, the third open attempt of the setup, times out, and `openIO` has
returned `nil`. -/
theorem tty_failing_open_not_reported :
    stTty.Terminal = true ∧
    (exec (envFailAt 2) [Event.openIO, Event.consoleTask] (fresh "c1" "runc" stTty)).opens =
      [OpenCall.fifo "in" .O_WRONLY_NONBLOCK, OpenCall.socket "/work/pty.sock",
       OpenCall.fifo "in" .O_RDONLY] ∧
    callError (envFailAt 2) 2 (OpenCall.fifo "in" .O_RDONLY) = some "context deadline exceeded" ∧
    ( process.openIO (envFailAt 2) (fresh "c1" "runc" stTty)).2 = none ∧
    (exec (envFailAt 2) [Event.openIO, Event.consoleTask] (fresh "c1" "runc" stTty)).result =
      some none := by
  decide

/-! ## Wait and the cleanup closure -/

/-- C4 (as the code has it): for every `Wait` call that begins once setup is
over (`openIO` has returned, the console goroutine, if any, has ended, and no
earlier `Wait` call is still between its barrier and its cleanup), the
cleanup closure runs only from `Wait`, only after that call has seen the
tracker at zero, and then no registered relay is still copying; every such
`Wait` call runs the closure once, so the handles get one `Close()` per
`Wait` call, not one in all. -/
theorem cleanup_runs_once_per_Wait_call (env : Env) (id runtime : String) (st : State)
    (pre es : List FEvent)
    (hret : (fexec env pre (ffresh id runtime st)).main = MainPC.returned)
    (hcons : consoleRunning (fexec env pre (ffresh id runtime st)) = false)
    (hwait : (fexec env pre (ffresh id runtime st)).sys.waiting = 0) :
    (∀ e, e ≠ FEvent.waitCleanup →
      (fstep env (fexec env (pre ++ es) (ffresh id runtime st)) e).sys.closes =
        (fexec env (pre ++ es) (ffresh id runtime st)).sys.closes) ∧
    (enabled (fexec env (pre ++ es) (ffresh id runtime st)).sys Event.waitCleanup = false →
      fstep env (fexec env (pre ++ es) (ffresh id runtime st)) FEvent.waitCleanup =
        fexec env (pre ++ es) (ffresh id runtime st)) ∧
    (enabled (fexec env (pre ++ es) (ffresh id runtime st)).sys Event.waitCleanup = true →
      (fexec env (pre ++ es) (ffresh id runtime st)).sys.p.wg = 0 ∧
      (∀ t ∈ (fexec env (pre ++ es) (ffresh id runtime st)).sys.tasks,
        t.callsDone = true → t.running = false) ∧
      (fstep env (fexec env (pre ++ es) (ffresh id runtime st)) FEvent.waitCleanup).sys.closes =
        (fexec env (pre ++ es) (ffresh id runtime st)).sys.closes ++
          ((fexec env pre (ffresh id runtime st)).sys.p.ioCleanupFn).getD [] ∧
      (fstep env (fexec env (pre ++ es) (ffresh id runtime st)) FEvent.waitCleanup).sys.waiting + 1
        = (fexec env (pre ++ es) (ffresh id runtime st)).sys.waiting) ∧
    (∀ s1, process.Wait (fexec env (pre ++ es) (ffresh id runtime st)).sys = some s1 →
      (∀ t ∈ (fexec env (pre ++ es) (ffresh id runtime st)).sys.tasks,
        t.callsDone = true → t.running = false) ∧
      s1.closes = (fexec env (pre ++ es) (ffresh id runtime st)).sys.closes ++
          ((fexec env pre (ffresh id runtime st)).sys.p.ioCleanupFn).getD []) := by
  have hI := FineInv_fexec env pre _ (FineInv_ffresh id runtime st)
  rw [fexec_append]
  generalize fexec env pre (ffresh id runtime st) = G at hI hret hcons hwait ⊢
  obtain ⟨hInv, hset⟩ := Inv_of_over G hI hret hcons
  rw [fexec_of_over env es G hret hcons hset]
  obtain ⟨k0, k1, k2, k3, -⟩ :=
    exec_of_settled env (es.map FEvent.toEvent) G.sys hInv hset
      (pastBarrierZero_of_waiting _ hwait)
  have hov : ∀ e, fstep env { G with sys := exec env (es.map FEvent.toEvent) G.sys } e =
      { G with sys := step env (exec env (es.map FEvent.toEvent) G.sys) e.toEvent } :=
    fun e => fstep_of_over env _ e hret (by simpa [consoleRunning] using hcons) k1
  generalize exec env (es.map FEvent.toEvent) G.sys = s at k0 k1 k2 k3 hov ⊢
  rw [← k3]
  obtain ⟨-, -, -, -, -, -, -, h8⟩ := step_of_settled env s Event.waitCleanup k1
  refine ⟨?_, ?_, ?_, ?_⟩
  · intro e he
    rw [hov e]
    obtain ⟨-, -, -, -, -, -, -, h9⟩ := step_of_settled env s e.toEvent k1
    simp only [h9]
    have : e.toEvent ≠ Event.waitCleanup := by
      cases e <;> simp_all [FEvent.toEvent]
    simp [this]
  · intro hen
    rw [hov FEvent.waitCleanup]
    simp [FEvent.toEvent, step, hen]
  · intro hen
    rw [hov FEvent.waitCleanup]
    simp only [FEvent.toEvent]
    have hen1 := hen
    simp only [enabled, decide_eq_true_eq] at hen
    have hw := k2 hen
    refine ⟨hw, (wg_zero_iff s k0).1 hw, by rw [h8]; simp [hen], ?_⟩
    simp only [step, hen1, if_true, apply, waitCleanup]
    split <;> simp <;> omega
  · intro s1 hs1
    unfold process.Wait at hs1
    split at hs1
    · rename_i hw
      simp only [Option.some.injEq] at hs1
      subst hs1
      refine ⟨(wg_zero_iff s k0).1 hw, ?_⟩
      simp only [waitCleanup]
      split <;> rename_i hq <;> simp [hq]
    · simp at hs1

/-- Witness for `cleanup_runs_once_per_Wait_call`: pipe mode, every open
succeeds, `openIO` returns, the two output relays end and a `Wait` passes its
barrier: its cleanup is enabled and finds the tracker at zero. -/
theorem cleanup_runs_once_per_Wait_call_witness :
    (fexec envOK (List.replicate 18 FEvent.main) (ffresh "c1" "runc" stPipe)).main =
      MainPC.returned ∧
    consoleRunning (fexec envOK (List.replicate 18 FEvent.main) (ffresh "c1" "runc" stPipe))
      = false ∧
    (fexec envOK (List.replicate 18 FEvent.main) (ffresh "c1" "runc" stPipe)).sys.waiting = 0 ∧
    enabled (fexec envOK (List.replicate 18 FEvent.main ++ [FEvent.copyEnds 0 CopyEnd.eof,
        FEvent.copyEnds 1 CopyEnd.eof, FEvent.waitBarrier]) (ffresh "c1" "runc" stPipe)).sys
        Event.waitCleanup = true ∧
    (fexec envOK (List.replicate 18 FEvent.main ++ [FEvent.copyEnds 0 CopyEnd.eof,
        FEvent.copyEnds 1 CopyEnd.eof, FEvent.waitBarrier]) (ffresh "c1" "runc" stPipe)).sys.p.wg
      = 0 :=
  ⟨by decide, by decide, by decide, by decide,
   ((cleanup_runs_once_per_Wait_call envOK "c1" "runc" stPipe (List.replicate 18 FEvent.main)
      [FEvent.copyEnds 0 CopyEnd.eof, FEvent.copyEnds 1 CopyEnd.eof, FEvent.waitBarrier]
      (by decide) (by decide) (by decide)).2.2.1 (by decide)).1⟩

/-- C4, counterexample: after a successful pipe-mode setup whose relays have
all ended, two `Wait` calls in a row both return and the closure runs in
each: every captured handle receives two `Close()` calls.  And in terminal
mode a `Wait` that passed its barrier before the console goroutine ran runs
the closure while the registered output relay is still copying. -/
theorem second_Wait_runs_cleanup_again :
    (( process.Wait (exec envOK [Event.openIO, Event.copyEnds 0 CopyEnd.eof,
        Event.copyEnds 1 CopyEnd.eof, Event.copyEnds 2 CopyEnd.eof]
        (fresh "c1" "runc" stPipe))).bind process.Wait).map Sys.closes =
      some ([Handle.fifo 1 "out" .O_WRONLY, Handle.fifo 2 "out" .O_RDONLY,
             Handle.fifo 3 "err" .O_WRONLY, Handle.fifo 4 "err" .O_RDONLY,
             Handle.shimStdin, Handle.fifo 5 "in" .O_RDONLY] ++
            [Handle.fifo 1 "out" .O_WRONLY, Handle.fifo 2 "out" .O_RDONLY,
             Handle.fifo 3 "err" .O_WRONLY, Handle.fifo 4 "err" .O_RDONLY,
             Handle.shimStdin, Handle.fifo 5 "in" .O_RDONLY]) ∧
    (exec envOK [Event.openIO, Event.copyEnds 0 CopyEnd.eof, Event.copyEnds 1 CopyEnd.eof,
        Event.copyEnds 2 CopyEnd.eof, Event.waitBarrier, Event.waitCleanup, Event.waitBarrier,
        Event.waitCleanup] (fresh "c1" "runc" stPipe)).closes.count (Handle.fifo 1 "out" .O_WRONLY)
      = 2 ∧
    (exec envOK [Event.openIO, Event.waitBarrier, Event.consoleTask, Event.waitCleanup]
        (fresh "c1" "runc" stTty)).closes =
      [Handle.ptyMaster, Handle.fifo 4 "out" .O_RDONLY, Handle.fifo 3 "out" .O_WRONLY] ∧
    (exec envOK [Event.openIO, Event.waitBarrier, Event.consoleTask, Event.waitCleanup]
        (fresh "c1" "runc" stTty)).tasks[1]? =
      some { dst := Handle.fifo 3 "out" .O_WRONLY, src := Handle.ptyMaster,
             callsDone := true, running := true } := by
  decide

end Shim
